import Mathlib

/-!
Verification of the curl-to-code converter (tokenizer, command parser, five code
generators) of the dev-tools repository.

JavaScript strings are modelled as `List Char` (named `JStr`).  JavaScript string
methods used by the source are modelled char-exactly for the ASCII range:
`toLowerCase`/`toUpperCase` via `Char.toLower`/`Char.toUpper`, the regex class
`\s` and `trim`/`trimStart` via `jsWsChar` (space, tab, LF, CR, VT, FF, NBSP,
BOM; other Unicode space separators are outside the inputs considered),
`indexOf(":")` via `List.findIdx?`, `slice` via `take`/`drop`,
`includes` via `List.isInfixOf`, `startsWith` via `List.isPrefixOf`.
A JavaScript object used as a string-keyed map is modelled as an association
list in insertion order with in-place overwrite (`upsert`); this matches
JavaScript property order for non-integer-like keys, which covers HTTP header
names.
-/

/-- JavaScript string, modelled as a list of characters. -/
abbrev JStr := List Char

/-- Embed a Lean string literal as a modelled JavaScript string. -/
def js (s : String) : JStr := s.toList

/-- The character class of the JavaScript regex `\s` (and of `trim`),
restricted to the characters that can occur in the inputs considered. -/
def jsWsChar (c : Char) : Bool :=
  c == ' ' || c == '\t' || c == '\n' || c == '\r' || c == '\x0b' || c == '\x0c' ||
  c == ' '

/-- JavaScript `trimStart`. -/
def jsTrimStart (s : JStr) : JStr := s.dropWhile jsWsChar

/-- JavaScript `trimEnd`. -/
def jsTrimEnd (s : JStr) : JStr := (s.reverse.dropWhile jsWsChar).reverse

/-- JavaScript `trim`. -/
def jsTrim (s : JStr) : JStr := jsTrimEnd (jsTrimStart s)

/-- JavaScript `toLowerCase` (ASCII-faithful). -/
def jsLower (s : JStr) : JStr := s.map Char.toLower

/-- JavaScript `toUpperCase` (ASCII-faithful). -/
def jsUpper (s : JStr) : JStr := s.map Char.toUpper

/-- The single-quote character (written via its code point). -/
def squote : Char := Char.ofNat 39

/-- JavaScript `startsWith("-")` specialised to a single character test. -/
def startsDash : JStr → Bool
  | c :: _ => c == '-'
  | [] => false

/-- Split at the first `:` like the source does with `indexOf(":")` followed by
two `slice` calls; `none` when there is no colon. -/
def splitFirstColon (s : JStr) : Option (JStr × JStr) :=
  match s.findIdx? (· == ':') with
  | some i => some (s.take i, s.drop (i + 1))
  | none => none

/-- JavaScript `hay.includes(needle)`: substring containment. -/
def jsIncludes (needle : JStr) : JStr → Bool
  | [] => needle.isEmpty
  | c :: t => needle.isPrefixOf (c :: t) || jsIncludes needle t

/-- JavaScript truthiness of `body` (a nullable string): `null` and the empty
string are falsy. -/
def jsTruthyOpt : Option JStr → Bool
  | none => false
  | some s => !s.isEmpty

/-- Assignment `obj[key] = val` on a JavaScript object modelled as an
association list: overwrite in place on an existing key, append otherwise. -/
def upsert : List (JStr × JStr) → JStr → JStr → List (JStr × JStr)
  | [], k, v => [(k, v)]
  | (k₁, v₁) :: t, k, v =>
      if k₁ = k then (k, v) :: t else (k₁, v₁) :: upsert t k v

/-! ## Tokenizer (`tokenizeCurl`) -/

/-- `input.trim().replace(/\\\n/g, " ")`: replace every backslash-LF pair by a
space, scanning left to right. -/
def replaceBsNl : List Char → List Char
  | '\\' :: '\n' :: rest => ' ' :: replaceBsNl rest
  | c :: rest => c :: replaceBsNl rest
  | [] => []

/-- `.replace(/\\\r\n/g, " ")`: replace every backslash-CR-LF triple by a
space, scanning left to right (applied after `replaceBsNl`, as in the source). -/
def replaceBsRN : List Char → List Char
  | '\\' :: '\r' :: '\n' :: rest => ' ' :: replaceBsRN rest
  | c :: rest => c :: replaceBsRN rest
  | [] => []

/-- Scanner mode of the tokenizer: between tokens, in an unquoted run, in a
single-quoted run, or in a double-quoted run. -/
inductive ScanMode where
  | ws
  | unq
  | sq
  | dq
deriving DecidableEq

/-- The tokenizer loop of `tokenizeCurl`, transcribed as a character-at-a-time
state machine.  `tok` is the current token accumulated in reverse, `acc` the
tokens emitted so far in reverse.  Unterminated quotes emit the partial token,
as in the source; a backslash that is the last input character inside a
double-quoted run is kept literally (the source only escapes when
`i + 1 < s.length`). -/
def scanAux : List Char → ScanMode → List Char → List JStr → List JStr
  | [], .ws, _, acc => acc.reverse
  | [], _, tok, acc => (tok.reverse :: acc).reverse
  | c :: rest, .ws, _, acc =>
      if jsWsChar c then scanAux rest .ws [] acc
      else if c == squote then scanAux rest .sq [] acc
      else if c == '"' then scanAux rest .dq [] acc
      else scanAux rest .unq [c] acc
  | c :: rest, .unq, tok, acc =>
      if jsWsChar c then scanAux rest .ws [] (tok.reverse :: acc)
      else scanAux rest .unq (c :: tok) acc
  | c :: rest, .sq, tok, acc =>
      if c == squote then scanAux rest .ws [] (tok.reverse :: acc)
      else scanAux rest .sq (c :: tok) acc
  | '\\' :: e :: rest, .dq, tok, acc =>
      let c := if e == 'n' then '\n' else if e == 't' then '\t'
               else if e == 'r' then '\r' else e
      scanAux rest .dq (c :: tok) acc
  | ['\\'], .dq, tok, acc => (('\\' :: tok).reverse :: acc).reverse
  | c :: rest, .dq, tok, acc =>
      if c == '"' then scanAux rest .ws [] (tok.reverse :: acc)
      else scanAux rest .dq (c :: tok) acc

/-- `tokenizeCurl` of the source: trim, collapse escaped line continuations,
then scan shell-like tokens (single quotes literal, double quotes with
`\n`/`\t`/`\r` escapes and pass-through of other escaped characters). -/
def tokenizeCurl (raw : JStr) : List JStr :=
  scanAux (replaceBsRN (replaceBsNl (jsTrim raw))) .ws [] []

/-! ## Command parser (`parseCurl`) -/

/-- Basic-auth credentials (`auth` of `ParsedCurl`). -/
structure Auth where
  user : JStr
  password : JStr
deriving DecidableEq

/-- Mutable locals of the `parseCurl` token loop. -/
structure ParseState where
  url : JStr
  method : JStr
  headers : List (JStr × JStr)
  body : Option JStr
  auth : Option Auth
deriving DecidableEq

/-- The state at the start of the `parseCurl` loop. -/
def initState : ParseState := ⟨[], [], [], none, none⟩

/-- The flag spellings that consume the following token (`tokens[++i]` in the
source). -/
def consumingFlags : List JStr :=
  [js "-X", js "--request", js "-H", js "--header",
   js "-d", js "--data", js "--data-raw", js "--data-binary", js "--data-ascii",
   js "-u", js "--user", js "--json", js "--form", js "-F",
   js "-b", js "--cookie", js "-A", js "--user-agent", js "-e", js "--referer"]

/-- Whether a token is a flag that consumes the following token.  All other
tokens are processed without consuming an argument. -/
def isConsuming (t : JStr) : Bool := consumingFlags.contains t

/-- The flag spellings the source consumes with no argument and no effect. -/
def noopFlags : List JStr :=
  [js "--compressed", js "-L", js "--location", js "-k", js "--insecure",
   js "-s", js "--silent", js "-v", js "--verbose", js "-i", js "--include"]

/-- Whether a token is one of the ignored no-argument flags. -/
def isNoopFlag (t : JStr) : Bool := noopFlags.contains t

/-- Effect of one argument-consuming flag occurrence on the parse state
(the corresponding branch of the `parseCurl` if-chain).  `--form`/`-F` only
sets the body when `!body` holds in JavaScript, i.e. when the body is `null`
or the empty string. -/
def applyC (t arg : JStr) (st : ParseState) : ParseState :=
  if t = js "-X" ∨ t = js "--request" then { st with method := jsUpper arg }
  else if t = js "-H" ∨ t = js "--header" then
    match splitFirstColon arg with
    | some (k, v) => { st with headers := upsert st.headers (jsTrim k) (jsTrim v) }
    | none => st
  else if t = js "-d" ∨ t = js "--data" ∨ t = js "--data-raw" ∨
          t = js "--data-binary" ∨ t = js "--data-ascii" then
    { st with body := some arg }
  else if t = js "-u" ∨ t = js "--user" then
    { st with auth := some (match splitFirstColon arg with
        | some (u, pw) => ⟨u, pw⟩
        | none => ⟨arg, []⟩) }
  else if t = js "--json" then
    { st with body := some arg,
              headers := upsert (upsert st.headers (js "Content-Type")
                (js "application/json")) (js "Accept") (js "application/json") }
  else if t = js "--form" ∨ t = js "-F" then
    if jsTruthyOpt st.body then st else { st with body := some arg }
  else if t = js "-b" ∨ t = js "--cookie" then
    { st with headers := upsert st.headers (js "Cookie") arg }
  else if t = js "-A" ∨ t = js "--user-agent" then
    { st with headers := upsert st.headers (js "User-Agent") arg }
  else if t = js "-e" ∨ t = js "--referer" then
    { st with headers := upsert st.headers (js "Referer") arg }
  else st

/-- Effect of one non-consuming token: no-op flags and unrecognized flags are
ignored, a token not starting with `-` is the positional URL and is kept only
when no URL was captured yet. -/
def applyNC (t : JStr) (st : ParseState) : ParseState :=
  if isNoopFlag t then st
  else if startsDash t then st
  else if st.url = [] then { st with url := t } else st

/-- The token loop of `parseCurl`.  A consuming flag that is the last token
binds its argument to the empty string (`tokens[++i] ?? ""`). -/
def parseLoop : List JStr → ParseState → ParseState
  | [], st => st
  | [t], st => if isConsuming t then applyC t [] st else applyNC t st
  | t :: a :: rest, st =>
      if isConsuming t then parseLoop rest (applyC t a st)
      else parseLoop (a :: rest) (applyNC t st)

/-- The parse state after running the loop over the tokens that follow the
command token. -/
def parseStateOf (raw : JStr) : ParseState :=
  match tokenizeCurl raw with
  | [] => initState
  | _ :: rest => parseLoop rest initState

/-- The normalized request model produced by `parseCurl`.  `isFormData` keeps
the field name of the source (the spec calls it `isFormUrlEncoded`). -/
structure ParsedCurl where
  url : JStr
  method : JStr
  headers : List (JStr × JStr)
  body : Option JStr
  auth : Option Auth
  isFormData : Bool
  isJson : Bool
deriving DecidableEq

/-- `headers["Content-Type"] || headers["content-type"] || ""`: the exact
content-type lookup of the source, including the JavaScript falsiness of the
empty string. -/
def ctLookup (hs : List (JStr × JStr)) : JStr :=
  let a := (List.lookup (js "Content-Type") hs).getD []
  if a ≠ [] then a else (List.lookup (js "content-type") hs).getD []

/-- Method inference of `parseCurl`: `body ? "POST" : "GET"` when no explicit
method was set (which includes an explicit method flag that bound the empty
string). -/
def inferMethod (st : ParseState) : JStr :=
  if st.method = [] then
    (if jsTruthyOpt st.body then js "POST" else js "GET")
  else st.method

/-- The `isJson` classification of `parseCurl`: content-type contains
`application/json`, or the body is non-null and starts (after leading
whitespace) with an opening brace or an opening bracket. -/
def classifyIsJson (hs : List (JStr × JStr)) (body : Option JStr) : Bool :=
  jsIncludes (js "application/json") (ctLookup hs) ||
  (match body with
   | some b => (js "\x7b").isPrefixOf (jsTrimStart b) ||
               (js "[").isPrefixOf (jsTrimStart b)
   | none => false)

/-- The `isFormData` classification of `parseCurl`: content-type contains
`application/x-www-form-urlencoded`. -/
def classifyIsFormData (hs : List (JStr × JStr)) : Bool :=
  jsIncludes (js "application/x-www-form-urlencoded") (ctLookup hs)

/-- The `ParsedCurl` value `parseCurl` builds from the final loop state. -/
def mkParsed (st : ParseState) : ParsedCurl :=
  ⟨st.url, inferMethod st, st.headers, st.body, st.auth,
   classifyIsFormData st.headers, classifyIsJson st.headers st.body⟩

/-- `parseCurl` of the source: `null` when there are no tokens, when the first
token is not `curl` case-insensitively, or when no URL was captured; otherwise
the normalized request with the inferred method and the derived content-type
classification computed from the final headers and body. -/
def parseCurl (raw : JStr) : Option ParsedCurl :=
  match tokenizeCurl raw with
  | [] => none
  | t0 :: rest =>
    if jsLower t0 = js "curl" then
      if (parseLoop rest initState).url = [] then none
      else some (mkParsed (parseLoop rest initState))
    else none

/-! ## JSON model (`JSON.parse` / `JSON.stringify(v, null, n)`)

JavaScript numbers are floating point; the model keeps the lexed numeric text
verbatim (`jnum raw`).  This round-trips the digits unchanged instead of
re-serialising through a float; none of the verified claims depends on numeric
re-serialisation. -/

/-- A parsed JSON value.  Object fields are kept in insertion order, as
`JSON.parse` does for non-integer-like keys. -/
inductive Json where
  | jnull
  | jbool (b : Bool)
  | jnum (raw : JStr)
  | jstr (s : JStr)
  | jarr (items : List Json)
  | jobj (fields : List (JStr × Json))

/-- JSON insignificant whitespace. -/
def jsonWsChar (c : Char) : Bool :=
  c == ' ' || c == '\t' || c == '\n' || c == '\r'

/-- Skip JSON whitespace. -/
def skipJsonWs (s : JStr) : JStr := s.dropWhile jsonWsChar

/-- Hex digit value of a character, if any. -/
def hexVal (c : Char) : Option Nat :=
  if '0' ≤ c ∧ c ≤ '9' then some (c.toNat - 48)
  else if 'a' ≤ c ∧ c ≤ 'f' then some (c.toNat - 87)
  else if 'A' ≤ c ∧ c ≤ 'F' then some (c.toNat - 70)
  else none

/-- Lex a JSON string body after the opening quote, processing the escape
sequences `JSON.parse` accepts and rejecting raw control characters. -/
def lexJsonStr : JStr → Option (JStr × JStr)
  | [] => none
  | '"' :: r => some ([], r)
  | '\\' :: e :: r =>
      if e == 'u' then
        match r with
        | h1 :: h2 :: h3 :: h4 :: r2 =>
          match hexVal h1, hexVal h2, hexVal h3, hexVal h4 with
          | some a, some b, some c, some d =>
            let n := ((a * 16 + b) * 16 + c) * 16 + d
            (lexJsonStr r2).map (fun (cs, rest) => (Char.ofNat n :: cs, rest))
          | _, _, _, _ => none
        | _ => none
      else
        let esc : Option Char :=
          if e == '"' then some '"' else if e == '\\' then some '\\'
          else if e == '/' then some '/' else if e == 'b' then some '\x08'
          else if e == 'f' then some '\x0c' else if e == 'n' then some '\n'
          else if e == 'r' then some '\r' else if e == 't' then some '\t'
          else none
        match esc with
        | some c => (lexJsonStr r).map (fun (cs, rest) => (c :: cs, rest))
        | none => none
  | c :: r =>
      if c.toNat < 32 then none
      else (lexJsonStr r).map (fun (cs, rest) => (c :: cs, rest))

/-- Lex a JSON number (grammar of `JSON.parse`: optional minus, integer part
without leading zeros, optional fraction, optional exponent), returning the
consumed text. -/
def lexJsonNum (s : JStr) : Option (JStr × JStr) :=
  let (neg, s1) : JStr × JStr :=
    match s with
    | '-' :: r => (['-'], r)
    | _ => ([], s)
  let intPart : Option (JStr × JStr) :=
    match s1 with
    | '0' :: r => some (['0'], r)
    | c :: r =>
        if '1' ≤ c ∧ c ≤ '9' then
          let ds := r.takeWhile Char.isDigit
          some (c :: ds, r.drop ds.length)
        else none
    | [] => none
  match intPart with
  | none => none
  | some (ip, s2) =>
    let (fp, s3) : JStr × JStr :=
      match s2 with
      | '.' :: r =>
          let ds := r.takeWhile Char.isDigit
          if ds = [] then ([], s2) else ('.' :: ds, r.drop ds.length)
      | _ => ([], s2)
    let dotHead : Bool := match s2 with | '.' :: _ => true | _ => false
    if fp.isEmpty && dotHead then none
    else
      let (ep, s4) : JStr × JStr :=
        match s3 with
        | e :: r =>
            if e == 'e' || e == 'E' then
              let (sg, r2) : JStr × JStr :=
                match r with
                | '+' :: r2 => (['+'], r2)
                | '-' :: r2 => (['-'], r2)
                | _ => ([], r)
              let ds := r2.takeWhile Char.isDigit
              if ds = [] then ([], s3) else (e :: (sg ++ ds), r2.drop ds.length)
            else ([], s3)
        | [] => ([], s3)
      let expHead : Bool := match s3 with | e :: _ => e == 'e' || e == 'E' | [] => false
      if ep.isEmpty && expHead then none
      else some (neg ++ ip ++ fp ++ ep, s4)

mutual

/-- Recursive-descent JSON value parse, fuelled for structural termination. -/
def parseJsonVal : Nat → JStr → Option (Json × JStr)
  | 0, _ => none
  | fuel + 1, s =>
    match skipJsonWs s with
    | 'n' :: 'u' :: 'l' :: 'l' :: r => some (.jnull, r)
    | 't' :: 'r' :: 'u' :: 'e' :: r => some (.jbool true, r)
    | 'f' :: 'a' :: 'l' :: 's' :: 'e' :: r => some (.jbool false, r)
    | '"' :: r => (lexJsonStr r).map (fun (cs, rest) => (.jstr cs, rest))
    | '[' :: r =>
        (match skipJsonWs r with
         | ']' :: r2 => some (.jarr [], r2)
         | _ => (parseJsonArrItems fuel r).map (fun (xs, rest) => (.jarr xs, rest)))
    | '\x7b' :: r =>
        (match skipJsonWs r with
         | '\x7d' :: r2 => some (.jobj [], r2)
         | _ => (parseJsonObjItems fuel r).map (fun (fs, rest) => (.jobj fs, rest)))
    | r => (lexJsonNum r).map (fun (cs, rest) => (.jnum cs, rest))

/-- Comma-separated JSON array items up to the closing bracket. -/
def parseJsonArrItems : Nat → JStr → Option (List Json × JStr)
  | 0, _ => none
  | fuel + 1, s =>
    match parseJsonVal fuel s with
    | none => none
    | some (v, r) =>
      match skipJsonWs r with
      | ',' :: r2 =>
          (parseJsonArrItems fuel r2).map (fun (xs, rest) => (v :: xs, rest))
      | ']' :: r2 => some ([v], r2)
      | _ => none

/-- Comma-separated JSON object members up to the closing brace. -/
def parseJsonObjItems : Nat → JStr → Option (List (JStr × Json) × JStr)
  | 0, _ => none
  | fuel + 1, s =>
    match skipJsonWs s with
    | '"' :: r =>
      match lexJsonStr r with
      | none => none
      | some (k, r2) =>
        match skipJsonWs r2 with
        | ':' :: r3 =>
          match parseJsonVal fuel r3 with
          | none => none
          | some (v, r4) =>
            match skipJsonWs r4 with
            | ',' :: r5 =>
                (parseJsonObjItems fuel r5).map (fun (fs, rest) => ((k, v) :: fs, rest))
            | '\x7d' :: r5 => some ([(k, v)], r5)
            | _ => none
        | _ => none
    | _ => none

end

/-- `JSON.parse` on a whole input: the parse succeeds if a single value
consumes the input up to trailing whitespace. -/
def jsonParse (s : JStr) : Option Json :=
  match parseJsonVal (2 * s.length + 2) s with
  | some (v, r) => if skipJsonWs r = [] then some v else none
  | none => none

/-- Escape one character as inside a JavaScript `JSON.stringify` string
literal (ASCII-faithful). -/
def jsEscChar (c : Char) : JStr :=
  if c == '"' then ['\\', '"']
  else if c == '\\' then ['\\', '\\']
  else if c == '\n' then ['\\', 'n']
  else if c == '\r' then ['\\', 'r']
  else if c == '\t' then ['\\', 't']
  else if c == '\x08' then ['\\', 'b']
  else if c == '\x0c' then ['\\', 'f']
  else if c.toNat < 32 then
    let lo := c.toNat % 16
    let hi := c.toNat / 16
    let hex := fun (n : Nat) => if n < 10 then Char.ofNat (48 + n) else Char.ofNat (87 + n)
    ['\\', 'u', '0', '0', hex hi, hex lo]
  else [c]

/-- `JSON.stringify` of a string value (the `jsStringify` helper of the source):
a double-quoted escaped literal. -/
def jsStringify (s : JStr) : JStr :=
  '"' :: ((s.foldr (fun c acc => jsEscChar c ++ acc) []) ++ ['"'])

/-- Spaces of one pretty-printing indentation level of width `w`, depth `d`. -/
def jsonIndent (w d : Nat) : JStr := List.replicate (w * d) ' '

mutual

/-- `JSON.stringify(v, null, w)` at nesting depth `d`. -/
def renderJson (w d : Nat) : Json → JStr
  | .jnull => js "null"
  | .jbool true => js "true"
  | .jbool false => js "false"
  | .jnum raw => raw
  | .jstr s => jsStringify s
  | .jarr [] => js "[]"
  | .jarr (x :: xs) =>
      js "[" ++ ['\n'] ++ jsonIndent w (d + 1) ++
        renderJsonItems w (d + 1) x xs ++ ['\n'] ++ jsonIndent w d ++ js "]"
  | .jobj [] => js "\x7b\x7d"
  | .jobj (f :: fs) =>
      js "\x7b" ++ ['\n'] ++ jsonIndent w (d + 1) ++
        renderJsonFields w (d + 1) f fs ++ ['\n'] ++ jsonIndent w d ++ js "\x7d"
termination_by j => sizeOf j
decreasing_by all_goals (simp_wf <;> omega)

/-- Comma-newline separated pretty array items. -/
def renderJsonItems (w d : Nat) : Json → List Json → JStr
  | x, [] => renderJson w d x
  | x, y :: ys =>
      renderJson w d x ++ [','] ++ ['\n'] ++ jsonIndent w d ++
        renderJsonItems w d y ys
termination_by x xs => 1 + sizeOf x + sizeOf xs
decreasing_by all_goals (simp_wf <;> omega)

/-- Comma-newline separated pretty object members. -/
def renderJsonFields (w d : Nat) : JStr × Json → List (JStr × Json) → JStr
  | (k, v), [] => jsStringify k ++ js ": " ++ renderJson w d v
  | (k, v), f :: fs =>
      jsStringify k ++ js ": " ++ renderJson w d v ++ [','] ++ ['\n'] ++
        jsonIndent w d ++ renderJsonFields w d f fs
termination_by f fs => 1 + sizeOf f + sizeOf fs
decreasing_by all_goals (simp_wf <;> omega)

end

/-- `.split("\n").join("\n" + indent(1))` of the source: continuation lines of
an embedded pretty-printed JSON block get two more leading spaces. -/
def indentCont : JStr → JStr
  | [] => []
  | '\n' :: r => '\n' :: ' ' :: ' ' :: indentCont r
  | c :: r => c :: indentCont r

/-- `String.replace(pat, rep)` with a plain-text global pattern, scanning left
to right without overlap (used by the python generator for the `: null` / `: true` /
`: false` rewrites). -/
def replaceAllSub (pat rep : JStr) : JStr → JStr
  | [] => []
  | c :: r =>
      if h : pat.isPrefixOf (c :: r) = true ∧ pat ≠ [] then
        rep ++ replaceAllSub pat rep ((c :: r).drop pat.length)
      else
        c :: replaceAllSub pat rep r
termination_by s => s.length
decreasing_by
  · simp only [List.length_drop, List.length_cons]
    have : 1 ≤ pat.length := by
      cases pat with
      | nil => exact absurd rfl h.2
      | cons a t => simp
    omega
  · simp

/-- Base64 of a byte sequence (three bytes to four alphabet characters, `=`
padding), as `Buffer.toString("base64")` produces. -/
def b64char (n : Nat) : Char :=
  (js "ABCDEFGHIJKLMNOPQRSTUVWXYZabcdefghijklmnopqrstuvwxyz0123456789+/").getD n 'A'

/-- Base64-encode a list of bytes. -/
def b64Encode : List Nat → JStr
  | [] => []
  | [a] => [b64char (a / 4), b64char (a % 4 * 16), '=', '=']
  | [a, b] => [b64char (a / 4), b64char (a % 4 * 16 + b / 16), b64char (b % 16 * 4), '=']
  | a :: b :: c :: rest =>
      [b64char (a / 4), b64char (a % 4 * 16 + b / 16),
       b64char (b % 16 * 4 + c / 64), b64char (c % 64)] ++ b64Encode rest

/-- `Buffer.from(s).toString("base64")` for the ASCII credentials the claims
exercise (each character is one byte). -/
def bufferBase64 (s : JStr) : JStr := b64Encode (s.map Char.toNat)


/-! ## URL model (`new URL(...)` as used by the Node.js generator)

The Node.js generator calls the WHATWG `URL` constructor and reads
`protocol`/`hostname`/`port`/`pathname`/`search`.  The model below parses the
`http`/`https` fragment of that grammar and is deliberately conservative: it
returns `none` on every input whose WHATWG parse would need normalisation the
model does not perform (non-http(s) schemes, userinfo, IPv6 hosts, characters
that would be percent-encoded, `.`/`..` path segments).  Where it returns
`some`, the components agree with the WHATWG parse: the scheme and host are
lowercased, a default or empty port is normalised to the empty string
(`urlObj.port`), a port with leading zeros is re-serialised numerically, a
missing path is `/`, and an empty query serialises to an empty `search`.
`protocol` is stored without the trailing colon, matching the
`urlObj.protocol.replace(":", "")`. -/

structure URLParts where
  protocol : JStr
  hostname : JStr
  port : JStr
  pathname : JStr
  search : JStr
deriving DecidableEq

/-- Characters accepted verbatim in a URL path by the model (those the WHATWG
parser keeps unencoded). -/
def urlOkPathChar (c : Char) : Bool :=
  let n := c.toNat
  0x21 ≤ n && n ≤ 0x7e && n != 0x22 && n != 0x25 && n != 0x3c && n != 0x3e &&
    n != 0x5c && n != 0x5e && n != 0x60 && n != 0x7b && n != 0x7c && n != 0x7d

/-- Characters accepted verbatim in a URL query by the model. -/
def urlOkQueryChar (c : Char) : Bool :=
  let n := c.toNat
  0x21 ≤ n && n ≤ 0x7e && n != 0x22 && n != 0x25 && n != 0x27 && n != 0x3c &&
    n != 0x3e && n != 0x5c && n != 0x60 && n != 0x7b && n != 0x7c && n != 0x7d

/-- Characters accepted in a (lowercased) hostname by the model. -/
def urlOkHostChar (c : Char) : Bool :=
  (('a' ≤ c && c ≤ 'z') || ('0' ≤ c && c ≤ '9') || c == '.' || c == '-' || c == '_')

/-- Numeric value of a digit string. -/
def natOfDigits (ds : JStr) : Nat :=
  ds.foldl (fun a c => a * 10 + (c.toNat - 48)) 0

/-- Render a natural number as its decimal digit string. -/
def digitsOfNat (n : Nat) : JStr := (toString n).toList

/-- Port normalisation of the URL model: empty or default ports serialise to
the empty string, leading zeros are dropped, out-of-range ports fail. -/
def urlPortVal (scheme : JStr) : Option JStr → Option JStr
  | none => some []
  | some [] => some []
  | some ds =>
      if ¬ (ds.all Char.isDigit) then none
      else if natOfDigits ds > 65535 then none
      else if (scheme = js "https" ∧ natOfDigits ds = 443) ∨
              (scheme = js "http" ∧ natOfDigits ds = 80) then some []
      else some (digitsOfNat (natOfDigits ds))

/-- The part of the URL after the authority, truncated before any fragment. -/
def urlBeforeHash (after : JStr) : JStr :=
  after.take ((after.findIdx? (· == '#')).getD after.length)

/-- The raw path component (before any `?`). -/
def urlRawPath (after : JStr) : JStr :=
  match (urlBeforeHash after).findIdx? (· == '?') with
  | some q => (urlBeforeHash after).take q
  | none => urlBeforeHash after

/-- The raw query component (after the `?`, when present). -/
def urlRawQuery (after : JStr) : Option JStr :=
  match (urlBeforeHash after).findIdx? (· == '?') with
  | some q => some ((urlBeforeHash after).drop (q + 1))
  | none => none

/-- Path and search validation/normalisation of the URL model. -/
def urlPathQuery (rawPath : JStr) (rawQuery : Option JStr) : Option (JStr × JStr) :=
  if ¬ (rawPath.all (fun c => c == '/' || urlOkPathChar c)) then none
  else if (rawPath.splitOn '/').any (fun seg => seg = js "." ∨ seg = js "..") then none
  else
    match rawQuery with
    | none => some (if rawPath = [] then js "/" else rawPath, [])
    | some [] => some (if rawPath = [] then js "/" else rawPath, [])
    | some q =>
        if q.all urlOkQueryChar then
          some (if rawPath = [] then js "/" else rawPath, '?' :: q)
        else none

/-- Assemble the URL parts once scheme, host and port are validated. -/
def parseURLPath (scheme host port after : JStr) : Option URLParts :=
  match urlPathQuery (urlRawPath after) (urlRawQuery after) with
  | none => none
  | some (pathname, search) => some ⟨scheme, host, port, pathname, search⟩

/-- Validate the host and port halves of the authority. -/
def parseURLHost (scheme : JStr) : JStr × Option JStr → JStr → Option URLParts
  | (hostRaw, portRaw), after =>
    if jsLower hostRaw = [] ∨ ¬ ((jsLower hostRaw).all urlOkHostChar) then none
    else
      match urlPortVal scheme portRaw with
      | none => none
      | some port => parseURLPath scheme (jsLower hostRaw) port after

/-- Split the authority at the host/port colon and validate it. -/
def parseURLSplitAuth (scheme authority after : JStr) : Option URLParts :=
  if authority = [] ∨ authority.contains '@' ∨ authority.contains '[' ∨
      authority.contains ']' then none
  else
    parseURLHost scheme
      (match authority.findIdx? (· == ':') with
       | none => (authority, none)
       | some j => (authority.take j, some (authority.drop (j + 1)))) after

/-- Length of the authority run after `scheme://`. -/
def urlAuthLen (rest2 : JStr) : Nat :=
  (rest2.findIdx? (fun c => c == '/' || c == '?' || c == '#')).getD rest2.length

/-- The conservative `new URL` model described above. -/
def parseURL (s : JStr) : Option URLParts :=
  match s.findIdx? (· == ':') with
  | none => none
  | some i =>
    if jsLower (s.take i) = js "http" ∨ jsLower (s.take i) = js "https" then
      if (js "//").isPrefixOf (s.drop (i + 1)) then
        parseURLSplitAuth (jsLower (s.take i))
          ((s.drop (i + 3)).take (urlAuthLen (s.drop (i + 3))))
          ((s.drop (i + 3)).drop (urlAuthLen (s.drop (i + 3))))
      else none
    else none

/-! ## Code generators

Each generator is transcribed from the source as the list of pushed lines;
the emitted program text is that list joined with newlines.  A pushed line may
itself contain newlines when a pretty-printed JSON block is embedded, exactly
as in the source. -/

/-- One rendered header property line of a JavaScript object literal
(fetch/axios generators), at two-level indentation. -/
def hdrLineJs (e : JStr × JStr) : JStr :=
  js "    " ++ jsStringify e.1 ++ js ": " ++ jsStringify e.2 ++ js ","

/-- The header entries the fetch generator renders: the parsed headers in
order, then a base64 basic-auth `Authorization` entry when credentials are
present. -/
def fetchHeaderEntries (p : ParsedCurl) : List (JStr × JStr) :=
  p.headers ++ (match p.auth with
    | some a => [(js "Authorization",
        js "Basic " ++ bufferBase64 (a.user ++ js ":" ++ a.password))]
    | none => [])

/-- The `method:` option of the fetch generator (omitted exactly when the
method is `GET`). -/
def fetchMethodOpts (p : ParsedCurl) : List JStr :=
  if p.method = js "GET" then []
  else [js "  method: " ++ jsStringify p.method ++ js ","]

/-- The `headers:` block of the fetch generator (omitted when empty). -/
def fetchHeaderOpts (p : ParsedCurl) : List JStr :=
  if (fetchHeaderEntries p).isEmpty then []
  else (js "  headers: \x7b") :: (fetchHeaderEntries p).map hdrLineJs ++ [js "  \x7d,"]

/-- The `body:` option of the fetch generator: absent for a `null` body; a
pretty JSON re-serialisation for a JSON-classified body that decodes, and the
raw string literal otherwise. -/
def fetchBodyOpts (p : ParsedCurl) : List JStr :=
  match p.body with
  | none => []
  | some b =>
    if p.isJson then
      match jsonParse b with
      | some v =>
          [js "  body: JSON.stringify(" ++ indentCont (renderJson 2 0 v) ++ js "),"]
      | none => [js "  body: " ++ jsStringify b ++ js ","]
    else [js "  body: " ++ jsStringify b ++ js ","]

/-- `generateJsFetch` of the source, as its pushed lines. -/
def generateJsFetchLines (p : ParsedCurl) : List JStr :=
  [js "const response = await fetch(" ++ jsStringify p.url ++ js ", \x7b"] ++
  fetchMethodOpts p ++ fetchHeaderOpts p ++ fetchBodyOpts p ++
  [js "\x7d);", js "const data = await response.json();", js "console.log(data);"]

/-- `generateJsFetch` of the source (joined output). -/
def generateJsFetch (p : ParsedCurl) : JStr :=
  List.intercalate ['\n'] (generateJsFetchLines p)

/-- The `auth:` config sub-object of the axios generator. -/
def axiosAuthParts (p : ParsedCurl) : List JStr :=
  match p.auth with
  | some a =>
      [js "  auth: \x7b",
       js "    username: " ++ jsStringify a.user ++ js ",",
       js "    password: " ++ jsStringify a.password ++ js ",",
       js "  \x7d,"]
  | none => []

/-- The `headers:` config block of the axios generator. -/
def axiosHeaderParts (p : ParsedCurl) : List JStr :=
  if p.headers.isEmpty then []
  else (js "  headers: \x7b") :: p.headers.map hdrLineJs ++ [js "  \x7d,"]

/-- The `data:` config entry of the axios generator. -/
def axiosDataParts (p : ParsedCurl) : List JStr :=
  match p.body with
  | none => []
  | some b =>
    if p.isJson then
      match jsonParse b with
      | some v => [js "  data: " ++ indentCont (renderJson 2 0 v) ++ js ","]
      | none => [js "  data: " ++ jsStringify b ++ js ","]
    else [js "  data: " ++ jsStringify b ++ js ","]

/-- `generateJsAxios` of the source, as its pushed lines (the auth comment is
`unshift`ed before the import when credentials are present). -/
def generateJsAxiosLines (p : ParsedCurl) : List JStr :=
  (match p.auth with
   | some _ => [js "// Axios handles basic auth natively:"]
   | none => []) ++
  [js "import axios from \x27axios\x27;", js "",
   js "const response = await axios(\x7b"] ++
  [js "  method: " ++ jsStringify (jsLower p.method) ++ js ",",
   js "  url: " ++ jsStringify p.url ++ js ","] ++
  axiosAuthParts p ++ axiosHeaderParts p ++ axiosDataParts p ++
  [js "\x7d);", js "console.log(response.data);"]

/-- `generateJsAxios` of the source (joined output). -/
def generateJsAxios (p : ParsedCurl) : JStr :=
  List.intercalate ['\n'] (generateJsAxiosLines p)

/-- The `headers = ...` dictionary block of the python generator. -/
def pyHeaderBlock (p : ParsedCurl) : List JStr :=
  if p.headers.isEmpty then []
  else (js "headers = \x7b") ::
    p.headers.map (fun e => js "    " ++ jsStringify e.1 ++ js ": " ++ jsStringify e.2 ++ js ",") ++
    [js "\x7d", js ""]

/-- Python spelling of a pretty JSON block: `JSON.stringify(v, null, 4)` with
`: null` / `: true` / `: false` rewritten to the python constants. -/
def pyJson (v : Json) : JStr :=
  replaceAllSub (js ": false") (js ": False")
    (replaceAllSub (js ": true") (js ": True")
      (replaceAllSub (js ": null") (js ": None") (renderJson 4 0 v)))

/-- The `payload = ...` / `data = ...` block of the python generator. -/
def pyBodyBlock (p : ParsedCurl) : List JStr :=
  match p.body with
  | none => []
  | some b =>
    if p.isJson then
      (match jsonParse b with
       | some v => [js "payload = " ++ pyJson v]
       | none => [js "payload = " ++ jsStringify b]) ++ [js ""]
    else [js "data = " ++ jsStringify b, js ""]

/-- The keyword arguments of the python `requests` call, in the order the
source assembles them: url, headers, auth, body. -/
def pyArgs (p : ParsedCurl) : List JStr :=
  [js "url"] ++
  (if p.headers.isEmpty then [] else [js "headers=headers"]) ++
  (match p.auth with
   | some a => [js "auth=(" ++ jsStringify a.user ++ js ", " ++ jsStringify a.password ++ js ")"]
   | none => []) ++
  (match p.body with
   | none => []
   | some _ => if p.isJson then [js "json=payload"] else [js "data=data"])

/-- `generatePythonRequests` of the source, as its pushed lines. -/
def generatePythonRequestsLines (p : ParsedCurl) : List JStr :=
  [js "import requests", js ""] ++
  pyHeaderBlock p ++ pyBodyBlock p ++
  [js "url = " ++ jsStringify p.url, js "",
   js "response = requests." ++ jsLower p.method ++ js "(" ++
     List.intercalate (js ", ") (pyArgs p) ++ js ")",
   js "print(response.json())"]

/-- `generatePythonRequests` of the source (joined output). -/
def generatePythonRequests (p : ParsedCurl) : JStr :=
  List.intercalate ['\n'] (generatePythonRequestsLines p)

/-- The body text the Go and Node.js generators embed: a pretty JSON
re-serialisation when the body is JSON-classified and decodes, the raw body
otherwise. -/
def goNodeBodyStr (p : ParsedCurl) : JStr :=
  let b := p.body.getD []
  if p.isJson then
    match jsonParse b with
    | some v => renderJson 2 0 v
    | none => b
  else b

/-- The request-construction lines of the Go generator: a `strings.NewReader`
body reader when `p.body` is truthy, a `nil` body otherwise. -/
def goBodyReq (p : ParsedCurl) : List JStr :=
  if jsTruthyOpt p.body then
    [js "\tbody := strings.NewReader(" ++ jsStringify (goNodeBodyStr p) ++ js ")",
     js "\treq, err := http.NewRequest(" ++ jsStringify p.method ++ js ", url, body)"]
  else
    [js "\treq, err := http.NewRequest(" ++ jsStringify p.method ++ js ", url, nil)"]

/-- `generateGo` of the source, as its pushed lines. -/
def generateGoLines (p : ParsedCurl) : List JStr :=
  [js "package main", js "", js "import (", js "\t\"fmt\""] ++
  (if jsTruthyOpt p.body then [js "\t\"strings\""] else []) ++
  [js "\t\"net/http\"", js "\t\"io\"", js ")", js "", js "func main() \x7b",
   js "\turl := " ++ jsStringify p.url, js ""] ++
  goBodyReq p ++
  [js "\tif err != nil \x7b", js "\t\tpanic(err)", js "\t\x7d", js ""] ++
  p.headers.map (fun e =>
    js "\treq.Header.Set(" ++ jsStringify e.1 ++ js ", " ++ jsStringify e.2 ++ js ")") ++
  (match p.auth with
   | some a => [js "\treq.SetBasicAuth(" ++ jsStringify a.user ++ js ", " ++
       jsStringify a.password ++ js ")"]
   | none => []) ++
  [js "", js "\tclient := &http.Client\x7b\x7d", js "\tresp, err := client.Do(req)",
   js "\tif err != nil \x7b", js "\t\tpanic(err)", js "\t\x7d",
   js "\tdefer resp.Body.Close()", js "",
   js "\tbody2, _ := io.ReadAll(resp.Body)", js "\tfmt.Println(string(body2))", js "\x7d"]

/-- `generateGo` of the source (joined output). -/
def generateGo (p : ParsedCurl) : JStr :=
  List.intercalate ['\n'] (generateGoLines p)

/-- The effective port string of the Node.js generator:
`urlObj.port || (protocol === "https" ? "443" : "80")`. -/
def nodeEffPort (u : URLParts) : JStr :=
  if u.port = [] then (if u.protocol = js "https" then js "443" else js "80") else u.port

/-- The header entries the Node.js generator renders: user headers in order,
then a computed `Content-Length` expression when the body is truthy, then a
base64 basic-auth `Authorization` entry when credentials are present. -/
def nodeHeaderEntries (p : ParsedCurl) : List (JStr × JStr) :=
  p.headers ++
  (if jsTruthyOpt p.body then [(js "Content-Length", js "Buffer.byteLength(postData)")] else []) ++
  (match p.auth with
   | some a => [(js "Authorization", js "Basic " ++ bufferBase64 (a.user ++ js ":" ++ a.password))]
   | none => [])

/-- One rendered header line of the Node.js `options` object: the
`Content-Length` value is emitted as an unquoted expression, every other value
as a string literal. -/
def nodeHdrLine (e : JStr × JStr) : JStr :=
  if e.1 = js "Content-Length" then
    js "    " ++ jsStringify e.1 ++ js ": " ++ e.2 ++ js ","
  else
    js "    " ++ jsStringify e.1 ++ js ": " ++ jsStringify e.2 ++ js ","

/-- Whether the Node.js generator renders an explicit `port:` option:
only for a non-default port of the `http`/`https` protocols. -/
def nodeShowsPort (u : URLParts) : Prop :=
  (u.protocol = js "https" ∧ nodeEffPort u ≠ js "443") ∨
  (u.protocol = js "http" ∧ nodeEffPort u ≠ js "80")

instance (u : URLParts) : Decidable (nodeShowsPort u) := by
  unfold nodeShowsPort; infer_instance

/-- The success-path lines of the Node.js generator for parsed URL parts. -/
def nodeSuccessLines (p : ParsedCurl) (u : URLParts) : List JStr :=
  [js "const " ++ u.protocol ++ js " = require(\x27" ++ u.protocol ++ js "\x27);", js ""] ++
  (if jsTruthyOpt p.body then
    [js "const postData = " ++ jsStringify (goNodeBodyStr p) ++ js ";", js ""] else []) ++
  [js "const options = \x7b",
   js "  hostname: " ++ jsStringify u.hostname ++ js ","] ++
  (if nodeShowsPort u then [js "  port: " ++ nodeEffPort u ++ js ","] else []) ++
  [js "  path: " ++ jsStringify (if u.pathname ++ u.search = [] then js "/"
     else u.pathname ++ u.search) ++ js ",",
   js "  method: " ++ jsStringify p.method ++ js ","] ++
  (if (nodeHeaderEntries p).isEmpty then []
   else (js "  headers: \x7b") :: (nodeHeaderEntries p).map nodeHdrLine ++ [js "  \x7d,"]) ++
  [js "\x7d;", js "",
   js "const req = " ++ u.protocol ++ js ".request(options, (res) => \x7b",
   js "  let data = \x27\x27;",
   js "  res.on(\x27data\x27, (chunk) => \x7b data += chunk; \x7d);",
   js "  res.on(\x27end\x27, () => \x7b console.log(JSON.parse(data)); \x7d);",
   js "\x7d);", js "",
   js "req.on(\x27error\x27, (e) => \x7b console.error(e); \x7d);"] ++
  (if jsTruthyOpt p.body then [js "req.write(postData);"] else []) ++
  [js "req.end();"]

/-- `generateNodeJs` of the source, as its pushed lines: the URL-parse success
path, or the commented fallback skeleton when the URL does not parse. -/
def generateNodeJsLines (p : ParsedCurl) : List JStr :=
  match parseURL p.url with
  | some u => nodeSuccessLines p u
  | none =>
      [js "// Could not fully parse the URL: " ++ p.url,
       js "// Please adjust hostname, path and port below.",
       js "const https = require(\x27https\x27);",
       js "// ... (manual setup required)"]

/-- `generateNodeJs` of the source (joined output). -/
def generateNodeJs (p : ParsedCurl) : JStr :=
  List.intercalate ['\n'] (generateNodeJsLines p)

/-- The language selector of the source (`Language` in the source). -/
inductive TargetLang where
  | jsFetch
  | jsAxios
  | pythonRequests
  | go
  | nodejs
deriving DecidableEq

/-- `generateCode` of the source: dispatch on the target selector. -/
def generateCode (p : ParsedCurl) : TargetLang → JStr
  | .jsFetch => generateJsFetch p
  | .jsAxios => generateJsAxios p
  | .pythonRequests => generatePythonRequests p
  | .go => generateGo p
  | .nodejs => generateNodeJs p

/-! ## Spec-side definitions

These definitions follow the wording of the specification and of the claims;
they are compared against the source-derived definitions above. -/

/-- Modelled from the spec: the first non-flag token after the command
keyword.  Per the glossary of the spec a flag is a token beginning with `-`,
optionally consuming the following token as its argument; the documented
argument-consuming flag subset is the same table the parser uses
(`isConsuming`), and unrecognized flags consume nothing. -/
def specFirstNonFlag : List JStr → Option JStr
  | [] => none
  | [t] => if startsDash t then none else some t
  | t :: a :: rest =>
      if startsDash t then
        (if isConsuming t then specFirstNonFlag rest else specFirstNonFlag (a :: rest))
      else some t

/-- The first non-empty non-flag token after the command keyword: the
positional token the parser can actually capture as the URL (an empty
positional token is skipped because the source guards the assignment with
`if (!url)`). -/
def firstUrlTok : List JStr → Option JStr
  | [] => none
  | [t] => if startsDash t then none else if t = [] then none else some t
  | t :: a :: rest =>
      if startsDash t then
        (if isConsuming t then firstUrlTok rest else firstUrlTok (a :: rest))
      else if t = [] then firstUrlTok (a :: rest) else some t

/-- Modelled from the spec: a body is classified JSON if the `Content-Type`
header contains `application/json` or the body is present and its first
non-whitespace character is an opening brace or bracket. -/
def specIsJson (hs : List (JStr × JStr)) (body : Option JStr) : Bool :=
  jsIncludes (js "application/json") (ctLookup hs) ||
  (match body with
   | some b =>
      (match (jsTrimStart b).head? with
       | some c => c == '\x7b' || c == '['
       | none => false)
   | none => false)

/-- Modelled from the spec: a body is classified form-urlencoded only via the
`Content-Type` header containing `application/x-www-form-urlencoded`. -/
def specIsFormUrlEncoded (hs : List (JStr × JStr)) : Bool :=
  jsIncludes (js "application/x-www-form-urlencoded") (ctLookup hs)

/-- Whether some line of a generated output starts with the given prefix. -/
def hasLinePfx (pfx : JStr) (lines : List JStr) : Bool :=
  lines.any (fun l => pfx.isPrefixOf l)

/-- An input string made of whitespace only (this includes the empty input). -/
def wsOnly (raw : JStr) : Bool := raw.all jsWsChar

/-! ## Helper lemmas -/

theorem isPrefixOf_self_append (p x : JStr) : p.isPrefixOf (p ++ x) = true := by
  induction p with
  | nil => simp [List.isPrefixOf]
  | cons c t ih => simp [List.isPrefixOf, ih]

theorem isPrefixOf_append_false (p a x : JStr)
    (h1 : p.isPrefixOf a = false) (h2 : a.isPrefixOf p = false) :
    p.isPrefixOf (a ++ x) = false := by
  induction p generalizing a with
  | nil => simp [List.isPrefixOf] at h1
  | cons c t ih =>
    cases a with
    | nil => simp [List.isPrefixOf] at h2
    | cons d s =>
      simp only [List.isPrefixOf, Bool.and_eq_false_iff, beq_eq_false_iff_ne,
        List.cons_append] at h1 h2 ⊢
      rcases h1 with h1 | h1
      · exact Or.inl h1
      · rcases h2 with h2 | h2
        · exact Or.inl (fun e => h2 e.symm)
        · exact Or.inr (ih s h1 h2)

theorem any_false_of_forall {α : Type} (l : List α) (f : α → Bool)
    (h : ∀ x, f x = false) : l.any f = false := by
  induction l with
  | nil => rfl
  | cons c t ih => simp [List.any, h, ih]

theorem hasLinePfx_append (pfx : JStr) (l₁ l₂ : List JStr) :
    hasLinePfx pfx (l₁ ++ l₂) = (hasLinePfx pfx l₁ || hasLinePfx pfx l₂) := by
  simp [hasLinePfx]

theorem isConsuming_dash (t : JStr) (h : isConsuming t = true) :
    startsDash t = true := by
  have hm : t ∈ consumingFlags := by
    simpa [isConsuming] using h
  fin_cases hm <;> rfl

theorem isNoopFlag_dash (t : JStr) (h : isNoopFlag t = true) :
    startsDash t = true := by
  have hm : t ∈ noopFlags := by
    simpa [isNoopFlag] using h
  fin_cases hm <;> rfl

theorem applyC_url (t arg : JStr) (st : ParseState) :
    (applyC t arg st).url = st.url := by
  unfold applyC
  repeat' split
  all_goals rfl

theorem applyNC_dash (t : JStr) (st : ParseState) (h : startsDash t = true) :
    applyNC t st = st := by
  unfold applyNC
  split
  · rfl
  · simp [h]

theorem parseLoop_url_aux : ∀ (n : Nat) (ts : List JStr) (st : ParseState),
    ts.length ≤ n →
    (parseLoop ts st).url =
      if st.url = [] then (firstUrlTok ts).getD [] else st.url := by
  intro n
  induction n with
  | zero =>
    intro ts st h
    have hts : ts = [] := List.eq_nil_of_length_eq_zero (Nat.le_zero.mp h)
    subst hts
    by_cases hu : st.url = [] <;> simp [parseLoop, firstUrlTok, hu]
  | succ n ih =>
    intro ts st h
    rcases ts with _ | ⟨t, rest0⟩
    · by_cases hu : st.url = [] <;> simp [parseLoop, firstUrlTok, hu]
    · rcases rest0 with _ | ⟨a, rest⟩
      · -- single final token
        by_cases hc : isConsuming t
        · have hd := isConsuming_dash t hc
          by_cases hu : st.url = [] <;>
            simp [parseLoop, firstUrlTok, hc, hd, hu, applyC_url]
        · have e : parseLoop [t] st = applyNC t st := by simp [parseLoop, hc]
          rw [e]
          unfold applyNC
          by_cases hn : isNoopFlag t
          · have hd := isNoopFlag_dash t hn
            by_cases hu : st.url = [] <;> simp [firstUrlTok, hn, hd, hu]
          · by_cases hd : startsDash t
            · by_cases hu : st.url = [] <;> simp [firstUrlTok, hn, hd, hu]
            · by_cases hu : st.url = []
              · by_cases ht : t = []
                · subst ht; simp +decide [firstUrlTok, hu]
                · simp [firstUrlTok, hn, hd, hu, ht]
              · simp [firstUrlTok, hn, hd, hu]
      · -- at least two tokens left
        have hlen1 : rest.length ≤ n := by
          simp only [List.length_cons] at h; omega
        have hlen2 : (a :: rest).length ≤ n := by
          simp only [List.length_cons] at h ⊢; omega
        by_cases hc : isConsuming t
        · have hd := isConsuming_dash t hc
          rw [show parseLoop (t :: a :: rest) st = parseLoop rest (applyC t a st) by
            simp [parseLoop, hc]]
          rw [ih rest _ hlen1, applyC_url]
          simp [firstUrlTok, hd, hc]
        · rw [show parseLoop (t :: a :: rest) st = parseLoop (a :: rest) (applyNC t st) by
            simp [parseLoop, hc]]
          rw [ih (a :: rest) _ hlen2]
          unfold applyNC
          by_cases hn : isNoopFlag t
          · have hd := isNoopFlag_dash t hn
            simp [firstUrlTok, hn, hd, hc]
          · by_cases hd : startsDash t
            · simp [firstUrlTok, hn, hd, hc]
            · by_cases hu : st.url = []
              · by_cases ht : t = []
                · subst ht; simp +decide [firstUrlTok, hu]
                · simp [firstUrlTok, hn, hd, hu, ht]
              · simp [firstUrlTok, hn, hd, hu]

theorem parseLoop_url (ts : List JStr) (st : ParseState) :
    (parseLoop ts st).url =
      if st.url = [] then (firstUrlTok ts).getD [] else st.url :=
  parseLoop_url_aux ts.length ts st (Nat.le_refl _)

theorem firstUrlTok_ne_nil_aux : ∀ (n : Nat) (ts : List JStr) (t : JStr),
    ts.length ≤ n → firstUrlTok ts = some t → t ≠ [] := by
  intro n
  induction n with
  | zero =>
    intro ts t h hf
    have hts : ts = [] := List.eq_nil_of_length_eq_zero (Nat.le_zero.mp h)
    subst hts
    simp [firstUrlTok] at hf
  | succ n ih =>
    intro ts t h hf
    rcases ts with _ | ⟨x, rest0⟩
    · simp [firstUrlTok] at hf
    · rcases rest0 with _ | ⟨a, rest⟩
      · simp only [firstUrlTok] at hf
        split at hf
        · simp at hf
        · split at hf
          · simp at hf
          · cases hf
            assumption
      · have hlen1 : rest.length ≤ n := by
          simp only [List.length_cons] at h; omega
        have hlen2 : (a :: rest).length ≤ n := by
          simp only [List.length_cons] at h ⊢; omega
        simp only [firstUrlTok] at hf
        split at hf
        · split at hf
          · exact ih rest t hlen1 hf
          · exact ih (a :: rest) t hlen2 hf
        · split at hf
          · exact ih (a :: rest) t hlen2 hf
          · cases hf
            assumption

theorem firstUrlTok_ne_nil (ts : List JStr) (t : JStr)
    (h : firstUrlTok ts = some t) : t ≠ [] :=
  firstUrlTok_ne_nil_aux ts.length ts t (Nat.le_refl _) h

theorem wsOnly_tokenize (raw : JStr) (h : wsOnly raw = true) :
    tokenizeCurl raw = [] := by
  have h1 : jsTrimStart raw = [] := by
    simp only [jsTrimStart]
    rw [List.dropWhile_eq_nil_iff]
    intro x hx
    exact List.all_eq_true.mp h x hx
  simp [tokenizeCurl, jsTrim, h1, jsTrimEnd, replaceBsNl, replaceBsRN, scanAux]

theorem isPrefixOf_singleton (c : Char) (t : JStr) :
    [c].isPrefixOf t = (match t.head? with
      | some d => c == d
      | none => false) := by
  cases t <;> simp [List.isPrefixOf]

/-! ## Parser step lemmas -/

theorem applyC_form (t arg : JStr) (st : ParseState)
    (ht : t = js "--form" ∨ t = js "-F") :
    applyC t arg st =
      if jsTruthyOpt st.body then st else { st with body := some arg } := by
  rcases ht with ht | ht <;> subst ht <;>
  · unfold applyC
    rw [if_neg (by decide), if_neg (by decide), if_neg (by decide),
        if_neg (by decide), if_neg (by decide), if_pos (by decide)]

theorem applyC_header (t arg : JStr) (st : ParseState)
    (ht : t = js "-H" ∨ t = js "--header") :
    applyC t arg st =
      (match splitFirstColon arg with
       | some (k, v) => { st with headers := upsert st.headers (jsTrim k) (jsTrim v) }
       | none => st) := by
  rcases ht with ht | ht <;> subst ht <;>
  · unfold applyC
    rw [if_neg (by decide), if_pos (by decide)]

theorem lookup_upsert (hs : List (JStr × JStr)) (k v : JStr) :
    List.lookup k (upsert hs k v) = some v := by
  induction hs with
  | nil => simp [upsert, List.lookup]
  | cons e t ih =>
    obtain ⟨k1, v1⟩ := e
    by_cases hk : k1 = k
    · simp [upsert, hk, List.lookup]
    · simp only [upsert, if_neg hk, List.lookup]
      have hbeq : (k == k1) = false := beq_eq_false_iff_ne.mpr (fun e => hk e.symm)
      rw [hbeq]
      exact ih

theorem contains_false_splitColon (h : JStr) (hc : h.contains ':' = false) :
    splitFirstColon h = none := by
  unfold splitFirstColon
  have hnone : h.findIdx? (· == ':') = none := by
    rw [List.findIdx?_eq_none_iff]
    intro x hx
    simp only [beq_eq_false_iff_ne]
    intro he
    subst he
    have hmem : h.contains ':' = true := by simpa using hx
    rw [hc] at hmem
    exact Bool.false_ne_true hmem
  rw [hnone]

/-! ## Claims about the parser -/

/-- Claim C1 (amended): for a successfully parsed input whose explicit method
is unset (no `-X`/`--request`, or that flag bound the empty string), the
method is `POST` when the body is non-null and non-empty, and `GET` when the
body is null or the empty string: the source tests `body ? "POST" : "GET"`, so
an empty-string body yields `GET`. -/
theorem c1_method_inference (raw : JStr) (p : ParsedCurl)
    (hp : parseCurl raw = some p) (hm : (parseStateOf raw).method = []) :
    (jsTruthyOpt p.body = true → p.method = js "POST") ∧
    (jsTruthyOpt p.body = false → p.method = js "GET") := by
  unfold parseCurl at hp
  split at hp
  · exact absurd hp (by simp)
  · rename_i t0 rest heq
    unfold parseStateOf at hm
    rw [heq] at hm
    have hm2 : (parseLoop rest initState).method = [] := hm
    split at hp
    · split at hp
      · exact absurd hp (by simp)
      · have hpp := Option.some.inj hp
        subst hpp
        constructor <;> intro hb <;>
          simp only [mkParsed] at hb <;>
          simp [mkParsed, inferMethod, hm2, hb]
    · exact absurd hp (by simp)

/-- Claim C1, counterexample to the claim as stated: `curl https://x.test -d ""`
supplies the empty string as a body with no method flag, but the parsed method
is `GET`, not `POST`. -/
theorem c1_counterexample :
    Option.map ParsedCurl.body (parseCurl (js "curl https://x.test -d \"\"")) =
      some (some []) ∧
    Option.map ParsedCurl.method (parseCurl (js "curl https://x.test -d \"\"")) =
      some (js "GET") ∧
    (parseStateOf (js "curl https://x.test -d \"\"")).method = [] := by decide

/-- Claim C1, witness: `curl https://x.test -d hi` has a truthy body and the
amended theorem yields method `POST`. -/
theorem c1_witness :
    (⟨js "https://x.test", js "POST", [], some (js "hi"), none, false, false⟩ : ParsedCurl).method =
      js "POST" :=
  (c1_method_inference (js "curl https://x.test -d hi")
    ⟨js "https://x.test", js "POST", [], some (js "hi"), none, false, false⟩
    (by decide) (by decide)).1 (by decide)

/-- Claim C3 (amended): for an input whose first token is `curl`
case-insensitively and whose remaining tokens contain a non-empty non-flag
token (flag arguments excluded), parse succeeds and the url is the first such
token verbatim.  (The claim as stated, without "non-empty", fails: see the
counterexample.) -/
theorem c3_url_first_positional (raw t0 : JStr) (rest : List JStr) (t : JStr)
    (heq : tokenizeCurl raw = t0 :: rest) (hcurl : jsLower t0 = js "curl")
    (hft : firstUrlTok rest = some t) :
    Option.map ParsedCurl.url (parseCurl raw) = some t := by
  have hne := firstUrlTok_ne_nil rest t hft
  have hurl : (parseLoop rest initState).url = t := by
    rw [parseLoop_url]
    simp [initState, hft]
  simp only [parseCurl, heq]
  rw [if_pos hcurl]
  have hnn : ¬((parseLoop rest initState).url = []) := by
    rw [hurl]; exact hne
  rw [if_neg hnn]
  simp [mkParsed, hurl]

/-- Claim C3, counterexample to the claim as stated: `curl ""` contains a
non-flag token after the keyword (the empty string), yet parse fails instead
of succeeding with that token as the url. -/
theorem c3_counterexample :
    tokenizeCurl (js "curl \"\"") = [js "curl", []] ∧
    specFirstNonFlag [[]] = some [] ∧
    parseCurl (js "curl \"\"") = none := by decide

/-- Claim C3, witness: `curl -L https://x.test` parses with the positional
token as the url. -/
theorem c3_witness :
    Option.map ParsedCurl.url (parseCurl (js "curl -L https://x.test")) =
      some (js "https://x.test") :=
  c3_url_first_positional (js "curl -L https://x.test") (js "curl")
    [js "-L", js "https://x.test"] (js "https://x.test")
    (by decide) (by decide) (by decide)

/-- Claim C4 (amended): `--form`/`-F` sets the body to its following token
when the body is null or the empty string (the source tests `!body`, so an
empty-string body is overwritten), and is consumed with no effect when a
non-empty body is already present. -/
theorem c4_form_first_wins (st : ParseState) (arg : JStr) (rest : List JStr) :
    (jsTruthyOpt st.body = true →
      parseLoop (js "-F" :: arg :: rest) st = parseLoop rest st ∧
      parseLoop (js "--form" :: arg :: rest) st = parseLoop rest st) ∧
    (jsTruthyOpt st.body = false →
      parseLoop (js "-F" :: arg :: rest) st = parseLoop rest { st with body := some arg } ∧
      parseLoop (js "--form" :: arg :: rest) st = parseLoop rest { st with body := some arg }) := by
  have e1 : parseLoop (js "-F" :: arg :: rest) st = parseLoop rest (applyC (js "-F") arg st) := by
    simp +decide [parseLoop]
  have e2 : parseLoop (js "--form" :: arg :: rest) st = parseLoop rest (applyC (js "--form") arg st) := by
    simp +decide [parseLoop]
  constructor
  · intro hb
    rw [e1, e2, applyC_form _ _ _ (Or.inr rfl), applyC_form _ _ _ (Or.inl rfl), if_pos hb]
    exact ⟨rfl, rfl⟩
  · intro hb
    rw [e1, e2, applyC_form _ _ _ (Or.inr rfl), applyC_form _ _ _ (Or.inl rfl),
        if_neg (by simp [hb])]
    exact ⟨rfl, rfl⟩

/-- Claim C4, counterexample to the claim as stated: after `-F ""` the body is
the empty string, and a second `-F second` overwrites it instead of being
ignored. -/
theorem c4_counterexample :
    Option.map ParsedCurl.body (parseCurl (js "curl https://x.test -F \"\" -F \"second\"")) =
      some (some (js "second")) ∧
    parseLoop [js "-F", js ""] initState = { initState with body := some [] } := by decide

/-- Claim C4, witness: with a non-empty body in place, `-F y` is consumed and
ignored. -/
theorem c4_witness :
    parseLoop [js "-F", js "y"] ⟨[], [], [], some (js "x"), none⟩ =
      ⟨[], [], [], some (js "x"), none⟩ :=
  ((c4_form_first_wins ⟨[], [], [], some (js "x"), none⟩ (js "y") []).1 (by decide)).1

/-- Claim C5: `parseCurl` returns the explicit not-parseable signal (`none`,
never an exception: the model is a total function) exactly when the input is
whitespace-only, the first token is not `curl` case-insensitively, or no
positional URL is captured by the token loop; in each case no request model is
produced. -/
theorem c5_parse_failure (raw : JStr) :
    parseCurl raw = none ↔
      (wsOnly raw = true ∨
       (∃ t0 rest, tokenizeCurl raw = t0 :: rest ∧ jsLower t0 ≠ js "curl") ∨
       (parseStateOf raw).url = []) := by
  constructor
  · intro hp
    unfold parseCurl at hp
    split at hp
    · rename_i heq
      right; right
      unfold parseStateOf
      rw [heq]
      rfl
    · rename_i t0 rest heq
      split at hp
      · rename_i hcurl
        right; right
        unfold parseStateOf
        rw [heq]
        split at hp
        · assumption
        · exact absurd hp (Option.some_ne_none _)
      · rename_i hcurl
        right; left
        exact ⟨t0, rest, heq, hcurl⟩
  · intro h
    rcases h with h | ⟨t0, rest, heq, hcurl⟩ | h
    · unfold parseCurl
      rw [wsOnly_tokenize raw h]
    · unfold parseCurl
      rw [heq]
      simp [hcurl]
    · unfold parseCurl
      cases heq : tokenizeCurl raw with
      | nil => rfl
      | cons t0 rest =>
        unfold parseStateOf at h
        rw [heq] at h
        by_cases hcurl : jsLower t0 = js "curl"
        · simp only [hcurl, if_pos]
          rw [if_pos h]
        · simp [hcurl]

/-- Claim C6: for every successfully parsed request, `isJson` is the classification of the spec (content-type lookup contains `application/json`, or the body
is present and its first non-whitespace character is an opening brace or bracket)
computed from
the final headers and body, and `isFormData` is the `isFormUrlEncoded` of the spec
(content-type lookup only, never body shape). -/
theorem c6_classification (raw : JStr) (p : ParsedCurl)
    (hp : parseCurl raw = some p) :
    p.isJson = specIsJson p.headers p.body ∧
    p.isFormData = specIsFormUrlEncoded p.headers := by
  unfold parseCurl at hp
  split at hp
  · exact absurd hp (by simp)
  · split at hp
    · split at hp
      · exact absurd hp (by simp)
      · have hpp := Option.some.inj hp
        subst hpp
        refine ⟨?_, rfl⟩
        simp only [mkParsed, classifyIsJson, specIsJson]
        congr 1
        cases hb : (parseLoop _ initState).body with
        | none => rfl
        | some b =>
          dsimp only
          have e1 : js "\x7b" = ['\x7b'] := rfl
          have e2 : js "[" = ['['] := rfl
          rw [e1, e2, isPrefixOf_singleton, isPrefixOf_singleton]
          cases (jsTrimStart b).head? with
          | none => rfl
          | some v =>
            rw [Bool.eq_iff_iff]
            simp only [Bool.or_eq_true, beq_iff_eq]
            constructor
            · rintro (hv | hv)
              · exact Or.inl hv.symm
              · exact Or.inr hv.symm
            · rintro (hv | hv)
              · exact Or.inl hv.symm
              · exact Or.inr hv.symm
    · exact absurd hp (by simp)

/-- Claim C6, witness: a curl command whose data argument is an opening brace
parses with `isJson` true
and the classification agrees with the spec formula. -/
theorem c6_witness :
    (⟨js "https://x.test", js "POST", [], some (js "\x7b"), none, false, true⟩ : ParsedCurl).isJson =
      specIsJson [] (some (js "\x7b")) :=
  (c6_classification (js "curl https://x.test -d \"\x7b\"")
    ⟨js "https://x.test", js "POST", [], some (js "\x7b"), none, false, true⟩
    (by decide)).1

/-- Claim C7: a `-H`/`--header` occurrence whose argument contains a colon
splits at the first colon, trims both sides and stores the pair with
overwrite-on-duplicate (`upsert`, under which a later value wins the lookup);
in particular `-H "A: 1" -H "A: 2"` yields exactly header `A` mapped to `2`. -/
theorem c7_header_overwrite :
    (∀ (st : ParseState) (h k v : JStr) (rest : List JStr),
        splitFirstColon h = some (k, v) →
        parseLoop (js "-H" :: h :: rest) st =
          parseLoop rest { st with headers := upsert st.headers (jsTrim k) (jsTrim v) } ∧
        parseLoop (js "--header" :: h :: rest) st =
          parseLoop rest { st with headers := upsert st.headers (jsTrim k) (jsTrim v) }) ∧
    (∀ (hs : List (JStr × JStr)) (k v : JStr),
        List.lookup k (upsert hs k v) = some v) ∧
    Option.map ParsedCurl.headers
      (parseCurl (js "curl http://x.test -H \"A: 1\" -H \"A: 2\"")) =
        some [(js "A", js "2")] := by
  refine ⟨?_, lookup_upsert, by decide⟩
  intro st h k v rest hs
  have e1 : parseLoop (js "-H" :: h :: rest) st = parseLoop rest (applyC (js "-H") h st) := by
    simp +decide [parseLoop]
  have e2 : parseLoop (js "--header" :: h :: rest) st = parseLoop rest (applyC (js "--header") h st) := by
    simp +decide [parseLoop]
  rw [e1, e2, applyC_header _ _ _ (Or.inl rfl), applyC_header _ _ _ (Or.inr rfl), hs]
  exact ⟨rfl, rfl⟩

/-- Claim C7, witness: one `-H "A: 1"` step stores the trimmed pair. -/
theorem c7_witness :
    parseLoop [js "-H", js "A: 1"] initState =
      { initState with headers := upsert initState.headers (jsTrim (js "A")) (jsTrim (js " 1")) } :=
  (c7_header_overwrite.1 initState (js "A: 1") (js "A") (js " 1") [] (by decide)).1

/-- Claim C9: a `-H`/`--header` occurrence whose argument contains no colon is
consumed silently, changes nothing in the parse state (in particular the
headers map), and parsing continues with the remaining tokens. -/
theorem c9_header_no_colon (st : ParseState) (h : JStr) (rest : List JStr)
    (hc : h.contains ':' = false) :
    parseLoop (js "-H" :: h :: rest) st = parseLoop rest st ∧
    parseLoop (js "--header" :: h :: rest) st = parseLoop rest st := by
  have e1 : parseLoop (js "-H" :: h :: rest) st = parseLoop rest (applyC (js "-H") h st) := by
    simp +decide [parseLoop]
  have e2 : parseLoop (js "--header" :: h :: rest) st = parseLoop rest (applyC (js "--header") h st) := by
    simp +decide [parseLoop]
  rw [e1, e2, applyC_header _ _ _ (Or.inl rfl), applyC_header _ _ _ (Or.inr rfl),
      contains_false_splitColon h hc]
  exact ⟨rfl, rfl⟩

/-- Claim C9, witness: `-H nocolon` leaves the state unchanged. -/
theorem c9_witness :
    parseLoop [js "-H", js "nocolon"] initState = parseLoop [] initState :=
  (c9_header_no_colon initState (js "nocolon") [] (by decide)).1

/-- Claim C10: the classification reads only the exact header names
`Content-Type` and `content-type`; when neither is present (for instance the
value is stored only under `CONTENT-TYPE`) and the body does not start with
an opening brace or bracket, both `isJson` and `isFormData` are false. -/
theorem c10_exact_casing (raw : JStr) (p : ParsedCurl)
    (hp : parseCurl raw = some p)
    (h1 : List.lookup (js "Content-Type") p.headers = none)
    (h2 : List.lookup (js "content-type") p.headers = none)
    (hb : ∀ b, p.body = some b →
      (jsTrimStart b).head? ≠ some '\x7b' ∧ (jsTrimStart b).head? ≠ some '[') :
    p.isJson = false ∧ p.isFormData = false := by
  unfold parseCurl at hp
  split at hp
  · exact absurd hp (by simp)
  · rename_i t0 rest heq
    split at hp
    · split at hp
      · exact absurd hp (by simp)
      · have hpp := Option.some.inj hp
        subst hpp
        simp only [mkParsed] at h1 h2 hb ⊢
        have hct : ctLookup (parseLoop rest initState).headers = [] := by
          simp [ctLookup, h1, h2]
        constructor
        · simp only [classifyIsJson, hct]
          have hj : jsIncludes (js "application/json") [] = false := rfl
          rw [hj]
          simp only [Bool.false_or]
          cases hbo : (parseLoop rest initState).body with
          | none => rfl
          | some b =>
            obtain ⟨hb1, hb2⟩ := hb b hbo
            dsimp only
            have e1 : js "\x7b" = ['\x7b'] := rfl
            have e2 : js "[" = ['['] := rfl
            rw [e1, e2, isPrefixOf_singleton, isPrefixOf_singleton]
            cases hh : (jsTrimStart b).head? with
            | none => rfl
            | some c =>
              rw [hh] at hb1 hb2
              simp only [Bool.or_eq_false_iff, beq_eq_false_iff_ne]
              exact ⟨fun e => hb1 (by rw [e]), fun e => hb2 (by rw [e])⟩
        · simp only [classifyIsFormData, hct]
          rfl
    · exact absurd hp (by simp)

/-- Claim C10, witness: `CONTENT-TYPE: application/json` under a different
casing does not make `isJson` or `isFormData` true. -/
theorem c10_witness :
    (⟨js "https://x.test", js "POST",
       [(js "CONTENT-TYPE", js "application/json")], some (js "x"), none, false,
       false⟩ : ParsedCurl).isJson = false ∧
    (⟨js "https://x.test", js "POST",
       [(js "CONTENT-TYPE", js "application/json")], some (js "x"), none, false,
       false⟩ : ParsedCurl).isFormData = false :=
  c10_exact_casing (js "curl https://x.test -H \"CONTENT-TYPE: application/json\" -d x")
    ⟨js "https://x.test", js "POST",
     [(js "CONTENT-TYPE", js "application/json")], some (js "x"), none, false, false⟩
    (by decide) (by decide) (by decide)
    (by intro b hb; cases hb; decide)

/-! ## URL model lemmas and generator claims -/

theorem parseURLPath_protocol (scheme host port after : JStr) (u : URLParts)
    (h : parseURLPath scheme host port after = some u) : u.protocol = scheme := by
  unfold parseURLPath at h
  split at h
  · exact absurd h (by simp)
  · rw [← Option.some.inj h]

theorem parseURLHost_protocol (scheme hostRaw : JStr) (portRaw : Option JStr)
    (after : JStr) (u : URLParts)
    (h : parseURLHost scheme (hostRaw, portRaw) after = some u) : u.protocol = scheme := by
  simp only [parseURLHost] at h
  split at h
  · exact absurd h (by simp)
  · split at h
    · exact absurd h (by simp)
    · exact parseURLPath_protocol _ _ _ _ _ h

theorem parseURLSplitAuth_protocol (scheme authority after : JStr) (u : URLParts)
    (h : parseURLSplitAuth scheme authority after = some u) : u.protocol = scheme := by
  unfold parseURLSplitAuth at h
  split at h
  · exact absurd h (by simp)
  · cases hm : authority.findIdx? (· == ':') with
    | none =>
      rw [hm] at h
      exact parseURLHost_protocol _ _ _ _ _ h
    | some j =>
      rw [hm] at h
      exact parseURLHost_protocol _ _ _ _ _ h

theorem parseURL_protocol (s : JStr) (u : URLParts)
    (h : parseURL s = some u) :
    u.protocol = js "http" ∨ u.protocol = js "https" := by
  unfold parseURL at h
  split at h
  · exact absurd h (by simp)
  · rename_i i
    split at h
    · rename_i hs
      split at h
      · have hp := parseURLSplitAuth_protocol _ _ _ _ h
        rw [hp]
        exact hs
      · exact absurd h (by simp)
    · exact absurd h (by simp)

theorem isPrefixOf_append_of_pfx (p a x : JStr) (h : p.isPrefixOf a = true) :
    p.isPrefixOf (a ++ x) = true := by
  induction p generalizing a with
  | nil => simp [List.isPrefixOf]
  | cons c t ih =>
    cases a with
    | nil => simp [List.isPrefixOf] at h
    | cons d s =>
      simp only [List.isPrefixOf, Bool.and_eq_true, List.cons_append] at h ⊢
      exact ⟨h.1, ih s h.2⟩

theorem hasLinePfx_cons (pfx l : JStr) (ls : List JStr) :
    hasLinePfx pfx (l :: ls) = (pfx.isPrefixOf l || hasLinePfx pfx ls) := by
  simp [hasLinePfx]

theorem hasLinePfx_map_false {α : Type} (pfx : JStr) (f : α → JStr) (l : List α)
    (h : ∀ e, pfx.isPrefixOf (f e) = false) : hasLinePfx pfx (l.map f) = false := by
  induction l with
  | nil => rfl
  | cons a t ih =>
    rw [List.map_cons, hasLinePfx_cons, h a, ih]
    rfl

theorem hdrLineJs_pfx_false (pfx : JStr) (e : JStr × JStr)
    (h1 : pfx.isPrefixOf (js "    ") = false)
    (h2 : (js "    ").isPrefixOf pfx = false) :
    pfx.isPrefixOf (hdrLineJs e) = false := by
  unfold hdrLineJs
  simp only [List.append_assoc]
  exact isPrefixOf_append_false pfx (js "    ") _ h1 h2

theorem fetch_hasBody (p : ParsedCurl) :
    hasLinePfx (js "  body: ") (generateJsFetchLines p) = p.body.isSome := by
  unfold generateJsFetchLines
  simp only [hasLinePfx_append]
  have h1 : hasLinePfx (js "  body: ")
      [js "const response = await fetch(" ++ jsStringify p.url ++ js ", \x7b"] = false := by
    rw [hasLinePfx_cons]
    simp only [List.append_assoc]
    rw [isPrefixOf_append_false (js "  body: ") (js "const response = await fetch(") _
      (by decide) (by decide)]
    rfl
  have h2 : hasLinePfx (js "  body: ") (fetchMethodOpts p) = false := by
    unfold fetchMethodOpts
    split
    · rfl
    · rw [hasLinePfx_cons]
      simp only [List.append_assoc]
      rw [isPrefixOf_append_false (js "  body: ") (js "  method: ") _
        (by decide) (by decide)]
      rfl
  have h3 : hasLinePfx (js "  body: ") (fetchHeaderOpts p) = false := by
    unfold fetchHeaderOpts
    split
    · rfl
    · rw [hasLinePfx_append, hasLinePfx_cons]
      have hm : hasLinePfx (js "  body: ") (List.map hdrLineJs (fetchHeaderEntries p)) = false :=
        hasLinePfx_map_false (js "  body: ") hdrLineJs (fetchHeaderEntries p)
          (fun e => hdrLineJs_pfx_false (js "  body: ") e (by decide) (by decide))
      rw [hm]
      decide
  have h4 : hasLinePfx (js "  body: ") (fetchBodyOpts p) = p.body.isSome := by
    unfold fetchBodyOpts
    cases hb : p.body with
    | none => rfl
    | some b =>
      dsimp only
      split
      · split
        · rw [hasLinePfx_cons]
          simp only [List.append_assoc]
          rw [isPrefixOf_append_of_pfx (js "  body: ") (js "  body: JSON.stringify(") _
            (by decide)]
          rfl
        · rw [hasLinePfx_cons]
          simp only [List.append_assoc]
          rw [isPrefixOf_append_of_pfx (js "  body: ") (js "  body: ") _ (by decide)]
          rfl
      · rw [hasLinePfx_cons]
        simp only [List.append_assoc]
        rw [isPrefixOf_append_of_pfx (js "  body: ") (js "  body: ") _ (by decide)]
        rfl
  rw [h1, h2, h3, h4]
  have h5 : hasLinePfx (js "  body: ")
      [js "\x7d);", js "const data = await response.json();", js "console.log(data);"] = false := by
    decide
  rw [h5]
  simp

theorem fetch_empty (p : ParsedCurl) (hb : p.body = some []) :
    (js "  body: \"\",") ∈ generateJsFetchLines p := by
  have hbl : fetchBodyOpts p = [js "  body: \"\","] := by
    unfold fetchBodyOpts
    rw [hb]
    dsimp only
    split <;> decide
  unfold generateJsFetchLines
  rw [hbl]
  simp

theorem any_map_false {α : Type} (g : JStr → Bool) (f : α → JStr) (l : List α)
    (h : ∀ e, g (f e) = false) : (l.map f).any g = false := by
  induction l with
  | nil => rfl
  | cons a t ih =>
    rw [List.map_cons, List.any_cons, h a, ih]
    rfl

theorem axios_hasData (p : ParsedCurl) :
    hasLinePfx (js "  data: ") (generateJsAxiosLines p) = p.body.isSome := by
  unfold generateJsAxiosLines
  simp only [hasLinePfx_append]
  have h1 : hasLinePfx (js "  data: ")
      (match p.auth with
       | some _ => [js "// Axios handles basic auth natively:"]
       | none => []) = false := by
    cases p.auth <;> rfl
  have h2 : hasLinePfx (js "  data: ")
      [js "import axios from \x27axios\x27;", js "",
       js "const response = await axios(\x7b"] = false := by decide
  have h3 : hasLinePfx (js "  data: ")
      [js "  method: " ++ jsStringify (jsLower p.method) ++ js ",",
       js "  url: " ++ jsStringify p.url ++ js ","] = false := by
    rw [hasLinePfx_cons, hasLinePfx_cons]
    simp only [List.append_assoc]
    rw [isPrefixOf_append_false (js "  data: ") (js "  method: ") _ (by decide) (by decide),
        isPrefixOf_append_false (js "  data: ") (js "  url: ") _ (by decide) (by decide)]
    rfl
  have h4 : hasLinePfx (js "  data: ") (axiosAuthParts p) = false := by
    unfold axiosAuthParts
    cases p.auth with
    | none => rfl
    | some a =>
      dsimp only
      rw [hasLinePfx_cons, hasLinePfx_cons, hasLinePfx_cons, hasLinePfx_cons]
      simp only [List.append_assoc]
      rw [isPrefixOf_append_false (js "  data: ") (js "    username: ") _ (by decide) (by decide),
          isPrefixOf_append_false (js "  data: ") (js "    password: ") _ (by decide) (by decide)]
      decide
  have h5 : hasLinePfx (js "  data: ") (axiosHeaderParts p) = false := by
    unfold axiosHeaderParts
    split
    · rfl
    · rw [hasLinePfx_append, hasLinePfx_cons]
      have hm : hasLinePfx (js "  data: ") (List.map hdrLineJs p.headers) = false :=
        hasLinePfx_map_false (js "  data: ") hdrLineJs p.headers
          (fun e => hdrLineJs_pfx_false (js "  data: ") e (by decide) (by decide))
      rw [hm]
      decide
  have h6 : hasLinePfx (js "  data: ") (axiosDataParts p) = p.body.isSome := by
    unfold axiosDataParts
    cases hb : p.body with
    | none => rfl
    | some b =>
      dsimp only
      split
      · split
        · rw [hasLinePfx_cons]
          simp only [List.append_assoc]
          rw [isPrefixOf_append_of_pfx (js "  data: ") (js "  data: ") _ (by decide)]
          rfl
        · rw [hasLinePfx_cons]
          simp only [List.append_assoc]
          rw [isPrefixOf_append_of_pfx (js "  data: ") (js "  data: ") _ (by decide)]
          rfl
      · rw [hasLinePfx_cons]
        simp only [List.append_assoc]
        rw [isPrefixOf_append_of_pfx (js "  data: ") (js "  data: ") _ (by decide)]
        rfl
  rw [h1, h2, h3, h4, h5, h6]
  have h7 : hasLinePfx (js "  data: ")
      [js "\x7d);", js "console.log(response.data);"] = false := by decide
  rw [h7]
  simp

theorem axios_empty (p : ParsedCurl) (hb : p.body = some []) :
    (js "  data: \"\",") ∈ generateJsAxiosLines p := by
  have hbl : axiosDataParts p = [js "  data: \"\","] := by
    unfold axiosDataParts
    rw [hb]
    dsimp only
    split <;> decide
  unfold generateJsAxiosLines
  rw [hbl]
  simp

theorem py_hasBody (p : ParsedCurl) :
    ((generatePythonRequestsLines p).any
      (fun l => (js "payload = ").isPrefixOf l || (js "data = ").isPrefixOf l)) =
      p.body.isSome := by
  unfold generatePythonRequestsLines
  simp only [List.any_append]
  have h1 : [js "import requests", js ""].any
      (fun l => (js "payload = ").isPrefixOf l || (js "data = ").isPrefixOf l) = false := by
    decide
  have h2 : (pyHeaderBlock p).any
      (fun l => (js "payload = ").isPrefixOf l || (js "data = ").isPrefixOf l) = false := by
    unfold pyHeaderBlock
    split
    · rfl
    · simp only [List.any_append, List.any_cons]
      have hm : (List.map (fun e => js "    " ++ jsStringify e.1 ++ js ": " ++ jsStringify e.2 ++ js ",") p.headers).any
          (fun l => (js "payload = ").isPrefixOf l || (js "data = ").isPrefixOf l) = false := by
        refine any_map_false _ _ _ (fun e => ?_)
        simp only [List.append_assoc]
        rw [isPrefixOf_append_false (js "payload = ") (js "    ") _ (by decide) (by decide),
            isPrefixOf_append_false (js "data = ") (js "    ") _ (by decide) (by decide)]
        rfl
      rw [hm]
      decide
  have h3 : (pyBodyBlock p).any
      (fun l => (js "payload = ").isPrefixOf l || (js "data = ").isPrefixOf l) = p.body.isSome := by
    unfold pyBodyBlock
    cases hb : p.body with
    | none => rfl
    | some b =>
      dsimp only
      split
      · simp only [List.any_append]
        split
        · rw [List.any_cons]
          rw [isPrefixOf_append_of_pfx (js "payload = ") (js "payload = ") _ (by decide)]
          rfl
        · rw [List.any_cons]
          rw [isPrefixOf_append_of_pfx (js "payload = ") (js "payload = ") _ (by decide)]
          rfl
      · rw [List.any_cons]
        rw [isPrefixOf_append_of_pfx (js "data = ") (js "data = ") _ (by decide),
            isPrefixOf_append_false (js "payload = ") (js "data = ") _ (by decide) (by decide)]
        rfl
  have h4 : [js "url = " ++ jsStringify p.url, js "",
      js "response = requests." ++ jsLower p.method ++ js "(" ++
        List.intercalate (js ", ") (pyArgs p) ++ js ")",
      js "print(response.json())"].any
      (fun l => (js "payload = ").isPrefixOf l || (js "data = ").isPrefixOf l) = false := by
    simp only [List.any_cons, List.any_nil]
    simp only [List.append_assoc]
    rw [isPrefixOf_append_false (js "payload = ") (js "url = ") _ (by decide) (by decide),
        isPrefixOf_append_false (js "data = ") (js "url = ") _ (by decide) (by decide),
        isPrefixOf_append_false (js "payload = ") (js "response = requests.") _ (by decide) (by decide),
        isPrefixOf_append_false (js "data = ") (js "response = requests.") _ (by decide) (by decide)]
    decide
  rw [h1, h2, h3, h4]
  simp

theorem py_empty (p : ParsedCurl) (hb : p.body = some []) :
    (js "payload = \"\"") ∈ generatePythonRequestsLines p ∨
    (js "data = \"\"") ∈ generatePythonRequestsLines p := by
  by_cases hj : p.isJson = true
  · left
    have hbl : pyBodyBlock p = [js "payload = \"\"", js ""] := by
      unfold pyBodyBlock
      rw [hb]
      dsimp only
      rw [if_pos hj]
      decide
    unfold generatePythonRequestsLines
    rw [hbl]
    simp
  · right
    have hbl : pyBodyBlock p = [js "data = \"\"", js ""] := by
      unfold pyBodyBlock
      rw [hb]
      dsimp only
      rw [if_neg hj]
      decide
    unfold generatePythonRequestsLines
    rw [hbl]
    simp

theorem go_hasBody (p : ParsedCurl) :
    hasLinePfx (js "\tbody := strings.NewReader(") (generateGoLines p) = jsTruthyOpt p.body := by
  unfold generateGoLines
  simp only [hasLinePfx_append]
  have h1 : hasLinePfx (js "\tbody := strings.NewReader(")
      [js "package main", js "", js "import (", js "\t\"fmt\""] = false := by decide
  have h2 : hasLinePfx (js "\tbody := strings.NewReader(")
      (if jsTruthyOpt p.body then [js "\t\"strings\""] else []) = false := by
    split
    · decide
    · rfl
  have h3 : hasLinePfx (js "\tbody := strings.NewReader(")
      [js "\t\"net/http\"", js "\t\"io\"", js ")", js "", js "func main() \x7b",
       js "\turl := " ++ jsStringify p.url, js ""] = false := by
    simp only [hasLinePfx, List.any_cons, List.any_nil]
    rw [isPrefixOf_append_false (js "\tbody := strings.NewReader(") (js "\turl := ") _
      (by decide) (by decide)]
    decide
  have h4 : hasLinePfx (js "\tbody := strings.NewReader(") (goBodyReq p) = jsTruthyOpt p.body := by
    unfold goBodyReq
    split
    · rename_i htb
      rw [hasLinePfx_cons]
      simp only [List.append_assoc]
      rw [isPrefixOf_append_of_pfx (js "\tbody := strings.NewReader(")
        (js "\tbody := strings.NewReader(") _ (by decide)]
      rw [htb]
      rfl
    · rename_i htb
      rw [hasLinePfx_cons]
      simp only [List.append_assoc]
      rw [isPrefixOf_append_false (js "\tbody := strings.NewReader(")
        (js "\treq, err := http.NewRequest(") _ (by decide) (by decide)]
      rw [Bool.not_eq_true] at htb
      rw [htb]
      rfl
  have h5 : hasLinePfx (js "\tbody := strings.NewReader(")
      (List.map (fun e => js "\treq.Header.Set(" ++ jsStringify e.1 ++ js ", " ++
        jsStringify e.2 ++ js ")") p.headers) = false := by
    refine hasLinePfx_map_false _ _ _ (fun e => ?_)
    simp only [List.append_assoc]
    exact isPrefixOf_append_false (js "\tbody := strings.NewReader(")
      (js "\treq.Header.Set(") _ (by decide) (by decide)
  have h6 : hasLinePfx (js "\tbody := strings.NewReader(")
      (match p.auth with
       | some a => [js "\treq.SetBasicAuth(" ++ jsStringify a.user ++ js ", " ++
           jsStringify a.password ++ js ")"]
       | none => []) = false := by
    cases p.auth with
    | none => rfl
    | some a =>
      dsimp only
      rw [hasLinePfx_cons]
      simp only [List.append_assoc]
      rw [isPrefixOf_append_false (js "\tbody := strings.NewReader(")
        (js "\treq.SetBasicAuth(") _ (by decide) (by decide)]
      rfl
  have h7 : hasLinePfx (js "\tbody := strings.NewReader(")
      [js "", js "\tclient := &http.Client\x7b\x7d", js "\tresp, err := client.Do(req)",
       js "\tif err != nil \x7b", js "\t\tpanic(err)", js "\t\x7d",
       js "\tdefer resp.Body.Close()", js "",
       js "\tbody2, _ := io.ReadAll(resp.Body)", js "\tfmt.Println(string(body2))",
       js "\x7d"] = false := by decide
  rw [h1, h2, h3, h4, h5, h6, h7]
  have h8 : hasLinePfx (js "\tbody := strings.NewReader(")
      [js "\tif err != nil \x7b", js "\t\tpanic(err)", js "\t\x7d", js ""] = false := by decide
  rw [h8]
  simp

theorem node_postData (p : ParsedCurl) :
    hasLinePfx (js "const postData = ") (generateNodeJsLines p) =
      (jsTruthyOpt p.body && (parseURL p.url).isSome) := by
  unfold generateNodeJsLines
  cases hu : parseURL p.url with
  | none =>
    dsimp only
    rw [hasLinePfx_cons]
    rw [isPrefixOf_append_false (js "const postData = ")
      (js "// Could not fully parse the URL: ") _ (by decide) (by decide)]
    have hrest : hasLinePfx (js "const postData = ")
        [js "// Please adjust hostname, path and port below.",
         js "const https = require(\x27https\x27);",
         js "// ... (manual setup required)"] = false := by decide
    rw [hrest]
    simp
  | some u =>
    dsimp only
    unfold nodeSuccessLines
    simp only [hasLinePfx_append]
    have hA : hasLinePfx (js "const postData = ")
        [js "const " ++ u.protocol ++ js " = require(\x27" ++ u.protocol ++ js "\x27);",
         js ""] = false := by
      rcases parseURL_protocol p.url u hu with h | h <;> rw [h] <;> decide
    have hB : hasLinePfx (js "const postData = ")
        (if jsTruthyOpt p.body then
          [js "const postData = " ++ jsStringify (goNodeBodyStr p) ++ js ";", js ""]
         else []) = jsTruthyOpt p.body := by
      split
      · rename_i htb
        rw [hasLinePfx_cons]
        simp only [List.append_assoc]
        rw [isPrefixOf_append_of_pfx (js "const postData = ") (js "const postData = ") _
          (by decide)]
        rw [htb]
        rfl
      · rename_i htb
        rw [Bool.not_eq_true] at htb
        rw [htb]
        rfl
    have hC : hasLinePfx (js "const postData = ")
        [js "const options = \x7b", js "  hostname: " ++ jsStringify u.hostname ++ js ","] = false := by
      simp only [hasLinePfx, List.any_cons, List.any_nil, List.append_assoc]
      rw [isPrefixOf_append_false (js "const postData = ") (js "  hostname: ") _
        (by decide) (by decide)]
      decide
    have hD : hasLinePfx (js "const postData = ")
        (if nodeShowsPort u then [js "  port: " ++ nodeEffPort u ++ js ","] else []) = false := by
      split
      · rw [hasLinePfx_cons]
        simp only [List.append_assoc]
        rw [isPrefixOf_append_false (js "const postData = ") (js "  port: ") _
          (by decide) (by decide)]
        rfl
      · rfl
    have hE : hasLinePfx (js "const postData = ")
        [js "  path: " ++ jsStringify (if u.pathname ++ u.search = [] then js "/"
           else u.pathname ++ u.search) ++ js ",",
         js "  method: " ++ jsStringify p.method ++ js ","] = false := by
      simp only [hasLinePfx, List.any_cons, List.any_nil, List.append_assoc]
      rw [isPrefixOf_append_false (js "const postData = ") (js "  path: ") _
        (by decide) (by decide),
        isPrefixOf_append_false (js "const postData = ") (js "  method: ") _
        (by decide) (by decide)]
      decide
    have hF : hasLinePfx (js "const postData = ")
        (if (nodeHeaderEntries p).isEmpty then []
         else (js "  headers: \x7b") :: (nodeHeaderEntries p).map nodeHdrLine ++
           [js "  \x7d,"]) = false := by
      split
      · rfl
      · rw [hasLinePfx_append, hasLinePfx_cons]
        have hm : hasLinePfx (js "const postData = ")
            ((nodeHeaderEntries p).map nodeHdrLine) = false := by
          refine hasLinePfx_map_false _ _ _ (fun e => ?_)
          unfold nodeHdrLine
          split <;>
          · simp only [List.append_assoc]
            exact isPrefixOf_append_false (js "const postData = ") (js "    ") _
              (by decide) (by decide)
        rw [hm]
        decide
    have hG : hasLinePfx (js "const postData = ")
        [js "\x7d;", js "",
         js "const req = " ++ u.protocol ++ js ".request(options, (res) => \x7b",
         js "  let data = \x27\x27;",
         js "  res.on(\x27data\x27, (chunk) => \x7b data += chunk; \x7d);",
         js "  res.on(\x27end\x27, () => \x7b console.log(JSON.parse(data)); \x7d);",
         js "\x7d);", js "",
         js "req.on(\x27error\x27, (e) => \x7b console.error(e); \x7d);"] = false := by
      simp only [hasLinePfx, List.any_cons, List.any_nil, List.append_assoc]
      rw [isPrefixOf_append_false (js "const postData = ") (js "const req = ") _
        (by decide) (by decide)]
      decide
    have hH : hasLinePfx (js "const postData = ")
        (if jsTruthyOpt p.body then [js "req.write(postData);"] else []) = false := by
      split
      · decide
      · rfl
    have hI : hasLinePfx (js "const postData = ") [js "req.end();"] = false := by decide
    rw [hA, hB, hC, hD, hE, hF, hG, hH, hI]
    simp

theorem node_portLine (p : ParsedCurl) (u : URLParts) (hu : parseURL p.url = some u) :
    hasLinePfx (js "  port: ") (generateNodeJsLines p) =
      (if nodeShowsPort u then true else false) := by
  unfold generateNodeJsLines
  rw [hu]
  dsimp only
  unfold nodeSuccessLines
  simp only [hasLinePfx_append]
  have hA : hasLinePfx (js "  port: ")
      [js "const " ++ u.protocol ++ js " = require(\x27" ++ u.protocol ++ js "\x27);",
       js ""] = false := by
    rw [hasLinePfx_cons]
    simp only [List.append_assoc]
    rw [isPrefixOf_append_false (js "  port: ") (js "const ") _ (by decide) (by decide)]
    rfl
  have hB : hasLinePfx (js "  port: ")
      (if jsTruthyOpt p.body then
        [js "const postData = " ++ jsStringify (goNodeBodyStr p) ++ js ";", js ""]
       else []) = false := by
    split
    · rw [hasLinePfx_cons]
      simp only [List.append_assoc]
      rw [isPrefixOf_append_false (js "  port: ") (js "const postData = ") _
        (by decide) (by decide)]
      rfl
    · rfl
  have hC : hasLinePfx (js "  port: ")
      [js "const options = \x7b", js "  hostname: " ++ jsStringify u.hostname ++ js ","] = false := by
    simp only [hasLinePfx, List.any_cons, List.any_nil, List.append_assoc]
    rw [isPrefixOf_append_false (js "  port: ") (js "  hostname: ") _ (by decide) (by decide)]
    decide
  have hD : hasLinePfx (js "  port: ")
      (if nodeShowsPort u then [js "  port: " ++ nodeEffPort u ++ js ","] else []) =
      (if nodeShowsPort u then true else false) := by
    split
    · rw [hasLinePfx_cons]
      simp only [List.append_assoc]
      rw [isPrefixOf_append_of_pfx (js "  port: ") (js "  port: ") _ (by decide)]
      rfl
    · rfl
  have hE : hasLinePfx (js "  port: ")
      [js "  path: " ++ jsStringify (if u.pathname ++ u.search = [] then js "/"
         else u.pathname ++ u.search) ++ js ",",
       js "  method: " ++ jsStringify p.method ++ js ","] = false := by
    simp only [hasLinePfx, List.any_cons, List.any_nil, List.append_assoc]
    rw [isPrefixOf_append_false (js "  port: ") (js "  path: ") _ (by decide) (by decide),
        isPrefixOf_append_false (js "  port: ") (js "  method: ") _ (by decide) (by decide)]
    decide
  have hF : hasLinePfx (js "  port: ")
      (if (nodeHeaderEntries p).isEmpty then []
       else (js "  headers: \x7b") :: (nodeHeaderEntries p).map nodeHdrLine ++
         [js "  \x7d,"]) = false := by
    split
    · rfl
    · rw [hasLinePfx_append, hasLinePfx_cons]
      have hm : hasLinePfx (js "  port: ")
          ((nodeHeaderEntries p).map nodeHdrLine) = false := by
        refine hasLinePfx_map_false _ _ _ (fun e => ?_)
        unfold nodeHdrLine
        split <;>
        · simp only [List.append_assoc]
          exact isPrefixOf_append_false (js "  port: ") (js "    ") _ (by decide) (by decide)
      rw [hm]
      decide
  have hG : hasLinePfx (js "  port: ")
      [js "\x7d;", js "",
       js "const req = " ++ u.protocol ++ js ".request(options, (res) => \x7b",
       js "  let data = \x27\x27;",
       js "  res.on(\x27data\x27, (chunk) => \x7b data += chunk; \x7d);",
       js "  res.on(\x27end\x27, () => \x7b console.log(JSON.parse(data)); \x7d);",
       js "\x7d);", js "",
       js "req.on(\x27error\x27, (e) => \x7b console.error(e); \x7d);"] = false := by
    simp only [hasLinePfx, List.any_cons, List.any_nil, List.append_assoc]
    rw [isPrefixOf_append_false (js "  port: ") (js "const req = ") _ (by decide) (by decide)]
    decide
  have hH : hasLinePfx (js "  port: ")
      (if jsTruthyOpt p.body then [js "req.write(postData);"] else []) = false := by
    split
    · decide
    · rfl
  have hI : hasLinePfx (js "  port: ") [js "req.end();"] = false := by decide
  rw [hA, hB, hC, hD, hE, hF, hG, hH, hI]
  split <;> rfl

/-- Claim C2 (amended): for every request model, a null body renders no
body-setting construct in any generator; the fetch, axios and python
generators render an explicit empty-body construct for the empty-string body
(their body line is present iff the body is non-null); the Go and Node.js
generators test body truthiness, so their body construct is present iff the
body is non-null and non-empty (for Node.js, additionally on the URL-parse
success path; the fallback path never renders a body). -/
theorem c2_body_rendering (p : ParsedCurl) :
    (hasLinePfx (js "  body: ") (generateJsFetchLines p) = p.body.isSome) ∧
    (p.body = some [] → (js "  body: \"\",") ∈ generateJsFetchLines p) ∧
    (hasLinePfx (js "  data: ") (generateJsAxiosLines p) = p.body.isSome) ∧
    (p.body = some [] → (js "  data: \"\",") ∈ generateJsAxiosLines p) ∧
    (((generatePythonRequestsLines p).any
      (fun l => (js "payload = ").isPrefixOf l || (js "data = ").isPrefixOf l)) =
      p.body.isSome) ∧
    (p.body = some [] →
      (js "payload = \"\"") ∈ generatePythonRequestsLines p ∨
      (js "data = \"\"") ∈ generatePythonRequestsLines p) ∧
    (hasLinePfx (js "\tbody := strings.NewReader(") (generateGoLines p) =
      jsTruthyOpt p.body) ∧
    (hasLinePfx (js "const postData = ") (generateNodeJsLines p) =
      (jsTruthyOpt p.body && (parseURL p.url).isSome)) :=
  ⟨fetch_hasBody p, fetch_empty p, axios_hasData p, axios_empty p,
   py_hasBody p, py_empty p, go_hasBody p, node_postData p⟩

/-- Claim C2, counterexample to the claim as stated: the request parsed from
`curl https://x.test -d ""` has the empty string as its body, yet the Go
output contains no `strings.NewReader` body construct and the Node.js output
no `postData` construct. -/
theorem c2_counterexample :
    parseCurl (js "curl https://x.test -d \"\"") =
      some ⟨js "https://x.test", js "GET", [], some [], none, false, false⟩ ∧
    (generateGoLines ⟨js "https://x.test", js "GET", [], some [], none, false, false⟩).all
      (fun l => !(jsIncludes (js "NewReader") l)) = true ∧
    (generateNodeJsLines ⟨js "https://x.test", js "GET", [], some [], none, false, false⟩).all
      (fun l => !(jsIncludes (js "postData") l)) = true := by decide

/-- Claim C2, witness: for the empty-string body, the fetch generator still
renders `body: "",` while the Go generator renders no body reader. -/
theorem c2_witness :
    (js "  body: \"\",") ∈
      generateJsFetchLines ⟨js "https://x.test", js "GET", [], some [], none, false, false⟩ ∧
    hasLinePfx (js "\tbody := strings.NewReader(")
      (generateGoLines ⟨js "https://x.test", js "GET", [], some [], none, false, false⟩) =
      jsTruthyOpt (some []) :=
  ⟨(c2_body_rendering ⟨js "https://x.test", js "GET", [], some [], none, false, false⟩).2.1 rfl,
   (c2_body_rendering ⟨js "https://x.test", js "GET", [], some [], none, false, false⟩).2.2.2.2.2.2.1⟩

/-- Claim C8 (amended): for a request whose url parses, the Node.js
generator renders a `port:` option exactly when the port differs from the
protocol default (443 for https, 80 for http); and when the body is non-empty
the rendered headers block consists of the user headers in order, then the
`Content-Length` entry rendered as the byte-length expression
`Buffer.byteLength(postData)` (not a numeric literal), then the base64
basic-auth `Authorization` entry when credentials are present. -/
theorem c8_node_port_headers (p : ParsedCurl) (u : URLParts)
    (hu : parseURL p.url = some u) :
    (hasLinePfx (js "  port: ") (generateNodeJsLines p) = true ↔ nodeShowsPort u) ∧
    (jsTruthyOpt p.body = true →
      nodeHeaderEntries p =
        p.headers ++ [(js "Content-Length", js "Buffer.byteLength(postData)")] ++
          (match p.auth with
           | some a => [(js "Authorization",
               js "Basic " ++ bufferBase64 (a.user ++ js ":" ++ a.password))]
           | none => []) ∧
      ∃ pre post, generateNodeJsLines p =
        pre ++ [js "  headers: \x7b"] ++ (nodeHeaderEntries p).map nodeHdrLine ++
          [js "  \x7d,"] ++ post) := by
  constructor
  · rw [node_portLine p u hu]
    by_cases hs : nodeShowsPort u <;> simp [hs]
  · intro htb
    constructor
    · unfold nodeHeaderEntries
      rw [if_pos htb]
    · have hne : (nodeHeaderEntries p).isEmpty = false := by
        unfold nodeHeaderEntries
        rw [if_pos htb]
        cases p.headers <;> simp
      unfold generateNodeJsLines
      rw [hu]
      dsimp only
      unfold nodeSuccessLines
      rw [hne]
      refine ⟨[js "const " ++ u.protocol ++ js " = require(\x27" ++ u.protocol ++ js "\x27);",
          js ""] ++
        (if jsTruthyOpt p.body then
          [js "const postData = " ++ jsStringify (goNodeBodyStr p) ++ js ";", js ""]
         else []) ++
        [js "const options = \x7b",
         js "  hostname: " ++ jsStringify u.hostname ++ js ","] ++
        (if nodeShowsPort u then [js "  port: " ++ nodeEffPort u ++ js ","] else []) ++
        [js "  path: " ++ jsStringify (if u.pathname ++ u.search = [] then js "/"
           else u.pathname ++ u.search) ++ js ",",
         js "  method: " ++ jsStringify p.method ++ js ","],
        [js "\x7d;", js "",
         js "const req = " ++ u.protocol ++ js ".request(options, (res) => \x7b",
         js "  let data = \x27\x27;",
         js "  res.on(\x27data\x27, (chunk) => \x7b data += chunk; \x7d);",
         js "  res.on(\x27end\x27, () => \x7b console.log(JSON.parse(data)); \x7d);",
         js "\x7d);", js "",
         js "req.on(\x27error\x27, (e) => \x7b console.error(e); \x7d);"] ++
        (if jsTruthyOpt p.body then [js "req.write(postData);"] else []) ++
        [js "req.end();"], ?_⟩
      simp [List.append_assoc]

/-- Claim C8, counterexample to the claim as stated: the request parsed from
`curl https://x.test -d ""` has a body (the empty string) and a parseable URL,
yet the Node.js output contains no `Content-Length` entry at all. -/
theorem c8_counterexample :
    parseCurl (js "curl https://x.test -d \"\"") =
      some ⟨js "https://x.test", js "GET", [], some [], none, false, false⟩ ∧
    (parseURL (js "https://x.test")).isSome = true ∧
    (generateNodeJsLines ⟨js "https://x.test", js "GET", [], some [], none, false, false⟩).all
      (fun l => !(jsIncludes (js "Content-Length") l)) = true := by decide

/-- Claim C8, witness: a non-default https port is rendered, and the
`Content-Length` expression entry appears in the headers block. -/
theorem c8_witness :
    hasLinePfx (js "  port: ")
      (generateNodeJsLines ⟨js "https://x.test:8443/a", js "POST",
        [(js "X-A", js "1")], some (js "hello"), some ⟨js "u", js "pw"⟩, false, false⟩) = true ∧
    (js "    \"Content-Length\": Buffer.byteLength(postData),") ∈
      generateNodeJsLines ⟨js "https://x.test:8443/a", js "POST",
        [(js "X-A", js "1")], some (js "hello"), some ⟨js "u", js "pw"⟩, false, false⟩ := by
  have h := c8_node_port_headers
    ⟨js "https://x.test:8443/a", js "POST",
      [(js "X-A", js "1")], some (js "hello"), some ⟨js "u", js "pw"⟩, false, false⟩
    ⟨js "https", js "x.test", js "8443", js "/a", []⟩ (by decide)
  refine ⟨h.1.mpr (by decide), ?_⟩
  obtain ⟨hent, pre, post, heq⟩ := h.2 (by decide)
  rw [heq]
  have hmem : (js "    \"Content-Length\": Buffer.byteLength(postData),") ∈
      (nodeHeaderEntries ⟨js "https://x.test:8443/a", js "POST",
        [(js "X-A", js "1")], some (js "hello"), some ⟨js "u", js "pw"⟩, false, false⟩).map
        nodeHdrLine := by decide
  simp only [List.mem_append]
  exact Or.inl (Or.inl (Or.inr hmem))
